import Mathlib

/-
  Verification of the lisogo ODM (lisogo/model) against its specification.

  The development is a shallow embedding of the persistence core:
    * lisogo/model/abstract_document.py  (AbstractDocument)
    * lisogo/model/object_cache.py       (ObjectCache, ObjectCacheCollection)
    * lisogo/model/document_transformer.py (DocumentTransformer)
    * lisogo/model/mongo_client.py       (Collection, Cursor, Database)
  together with the small slice of the pymongo 2.x driver the code relies on
  (Collection.save / insert / update, Cursor.next, Database fix_incoming and
  fix_outgoing SON manipulation).

  Python values stored in SON documents are modeled by the inductive `Value`;
  a live AbstractDocument instance is modeled by the record `DocR`, embedded
  into `Value` through the constructor `Value.vObj`.  Object identity (Python
  aliasing) is modeled by the instance identifier field `iid`: two values
  represent the same live instance exactly when their `iid` agree.  Raised
  exceptions are modeled with `Except PyError`.  The driver state (the data
  store, the per-collection cache registry, and the fresh ObjectId and
  instance counters) lives in the record `DB` and is threaded explicitly.

  Recursive operations that are not structurally recursive in the source
  (the SON transformers, which re-enter document save and retrieve) take an
  explicit fuel argument; running out of fuel yields the distinguished error
  `PyError.fuelOut`, which never corresponds to a Python behavior, and all
  universally quantified theorems about these operations are conditioned on a
  normal result.
-/

set_option maxHeartbeats 1600000

/-- Python exceptions raised by the modeled code. `assertionError` is raised
by the failed assert in fromSON (the type-mismatch failure of the spec),
`keyError` by a missing dictionary key (the missing-field failure),
`attributeError` by a failed getattr (unknown document type),
`typeError` by the ObjectCache key check and by subscripting non-dicts,
and `persistError`, `retrieveError`, `notFoundError` mirror
lisogo.model.exceptions (NotFoundError is a subclass of RetrieveError in the
source; the embedding keeps them as distinct constructors and treats the
subclass relation in the theorem statements). `stopIteration` ends cursor
iteration. `fuelOut` is an artifact of the embedding only. -/
inductive PyError : Type where
  | assertionError
  | keyError
  | attributeError
  | typeError
  | persistError
  | retrieveError
  | notFoundError
  | stopIteration
  | fuelOut
deriving DecidableEq, Repr

/-- SON values and live objects. `vOid n` models a bson ObjectId, `vMap`
models a Python dict (association list in insertion order; every claim
observes maps only through key lookup, never through ordering, matching the
arbitrary iteration order of a Python dict), `vPlaceholder` models a
lisogo DocumentPlaceholder (the bound collection is kept by name), and
`vObj` carries the components of a live AbstractDocument instance: class
name, the collection name returned by the concrete collection() method
(`none` models returning None, the nested-only marker), the `_id` slot, the
`_modified` flag, the `_ignoredFields` list, the business fields of the
instance dict, the other underscore-prefixed instance attributes, the two
field caches (`_fields` and `_fieldnames`), and the instance identity. -/
inductive Value : Type where
  | vNull
  | vBool (b : Bool)
  | vStr (s : String)
  | vInt (n : Int)
  | vOid (n : Nat)
  | vMap (entries : List (String × Value))
  | vPlaceholder (coll : Option String) (oid : Nat)
  | vObj (type_ : String) (collName : Option String) (id : Value) (modified : Bool)
         (ignoredFields : List String) (fields : List (String × Value))
         (privateAttrs : List (String × Value))
         (fieldsCache : Option (List (String × Value)))
         (fieldnamesCache : Option (List String)) (iid : Nat)
deriving Repr

/-- A SON document: a Python dict from field name to value. -/
abbrev SON := List (String × Value)

/-- A live AbstractDocument instance, as a record (the same data as
`Value.vObj`, in a shape that supports record update syntax). -/
structure DocR : Type where
  type_ : String
  collName : Option String
  id : Value
  modified : Bool
  ignoredFields : List String
  fields : List (String × Value)
  privateAttrs : List (String × Value)
  fieldsCache : Option (List (String × Value))
  fieldnamesCache : Option (List String)
  iid : Nat
deriving Repr

/-- Embed a live document into `Value`. -/
def DocR.val (d : DocR) : Value :=
  Value.vObj d.type_ d.collName d.id d.modified d.ignoredFields d.fields
    d.privateAttrs d.fieldsCache d.fieldnamesCache d.iid

/-- Recover a live document from a `Value`, when it is one. -/
def Value.asDoc : Value → Option DocR
  | .vObj t cn i m ig f p fc fn iid => some ⟨t, cn, i, m, ig, f, p, fc, fn, iid⟩
  | _ => none

theorem asDoc_val (d : DocR) : d.val.asDoc = some d := rfl

/-- Dict lookup: `m[k]`, `none` modeling a KeyError. -/
def lookupField : SON → String → Option Value
  | [], _ => none
  | kv :: rest, k => if kv.1 == k then some kv.2 else lookupField rest k

/-- Dict assignment `m[k] = v`: replace the first binding of `k`, or append. -/
def setField : SON → String → Value → SON
  | [], k, v => [(k, v)]
  | kv :: rest, k, v => if kv.1 == k then (k, v) :: rest else kv :: setField rest k v

/-- Dict membership `k in m`. -/
def containsKey (m : SON) (k : String) : Bool :=
  (lookupField m k).isSome

mutual
/-- Python equality (the == operator) between stored values. Scalars compare
by value; dicts compare entrywise (Python dict equality ignores order, but no
claim compares dicts whose insertion orders differ); two live objects compare
by identity, the default object equality, modeled by their `iid` (concrete
document classes of the repository may override eq, which no claim
exercises). -/
def pyEq : Value → Value → Bool
  | .vNull, .vNull => true
  | .vBool a, .vBool b => a == b
  | .vStr a, .vStr b => a == b
  | .vInt a, .vInt b => a == b
  | .vOid a, .vOid b => a == b
  | .vMap a, .vMap b => pyEqEntries a b
  | .vPlaceholder c1 o1, .vPlaceholder c2 o2 => c1 == c2 && o1 == o2
  | .vObj _ _ _ _ _ _ _ _ _ iid1, .vObj _ _ _ _ _ _ _ _ _ iid2 => iid1 == iid2
  | _, _ => false

/-- Entrywise equality of two dict association lists. -/
def pyEqEntries : List (String × Value) → List (String × Value) → Bool
  | [], [] => true
  | (k1, v1) :: r1, (k2, v2) :: r2 => k1 == k2 && pyEq v1 v2 && pyEqEntries r1 r2
  | _, _ => false
end

/-- Python truthiness of a value, as used by `if result:` and `if not found:`
in the source. -/
def isTruthy : Value → Bool
  | .vNull => false
  | .vBool b => b
  | .vStr s => !s.data.isEmpty
  | .vInt n => n != 0
  | .vOid _ => true
  | .vMap m => !m.isEmpty
  | .vPlaceholder _ _ => true
  | .vObj _ _ _ _ _ _ _ _ _ _ => true

/-- Python str() of a value, as used for the keys of the types mapping
(`types_mapping[str(value.id)]`). `str(None)` is the string None; the hex
string of an ObjectId is modeled by the decimal string of its number. -/
def pyStr : Value → String
  | .vNull => "None"
  | .vBool b => if b then "True" else "False"
  | .vStr s => s
  | .vInt n => toString n
  | .vOid n => toString n
  | .vMap _ => "<dict>"
  | .vPlaceholder _ _ => "<placeholder>"
  | .vObj _ _ _ _ _ _ _ _ _ _ => "<object>"

/-- The test member[0][0] == underscore of ignoreMember, evaluated on the
character list (so that proofs can compute); an empty name, which would
raise IndexError in Python, yields false. -/
def startsWithUnderscore (s : String) : Bool :=
  match s.data with
  | [] => false
  | c :: _ => c == '_'

/-- The one-character string name[0], as built when ignoreMember receives a
bare string instead of a (name, value) pair. -/
def firstCharStr (s : String) : String :=
  match s.data with
  | [] => ""
  | c :: _ => String.mk [c]

/-- AbstractDocument.ignoreMember applied, as intended, to a pair
(member name, member value) coming from inspect.getmembers: ignored when the
name starts with an underscore, or the name is in `_ignoredFields`, or the
value is a method (methods never appear among the modeled values, so the
ismethod disjunct is constantly false here). -/
def ignoreMemberPair (ignored : List String) (m : String × Value) : Bool :=
  startsWithUnderscore m.1 || ignored.contains m.1

/-- AbstractDocument.ignoreMember as invoked by setattr, which passes the
bare attribute name where a (name, value) pair is expected: member[0] is then
the first character of the name, so the test degenerates to: first character
is an underscore, or the one-character string made of the first character is
an element of `_ignoredFields` (never true for the default ignore list), or
ismethod of the second character (always false; a one-character attribute
name would raise IndexError in Python, which no claim exercises). -/
def ignoreMemberStr (ignored : List String) (name : String) : Bool :=
  firstCharStr name == "_" || ignored.contains (firstCharStr name)

/-- inspect.getmembers(self): all attributes of the instance and its class.
The embedding lists the underscore internals (with the `_ignoredFields` list
itself elided, as its value is a Python list of strings, not a stored value,
and every underscore entry is discarded by the ignore filter anyway), the two
data properties id and modified, then the instance dict. Methods, always
discarded by the ismethod test of ignoreMember, are not represented.
inspect.getmembers sorts alphabetically; the embedding keeps insertion order,
which every claim is insensitive to (only key lookups are observed). -/
def getmembers (d : DocR) : List (String × Value) :=
  [("_id", d.id), ("_modified", Value.vBool d.modified),
   ("id", d.id), ("modified", Value.vBool d.modified)]
  ++ d.privateAttrs ++ d.fields

/-- AbstractDocument: del self._fields guarded by AttributeError. -/
def invalidateFieldsCache (d : DocR) : DocR :=
  { d with fieldsCache := none }

/-- AbstractDocument.fieldsToStore: the (name, value) members to export,
computed through the `_fields` cache. -/
def fieldsToStore (d : DocR) : List (String × Value) × DocR :=
  match d.fieldsCache with
  | some fs => (fs, d)
  | none =>
      let fs := (getmembers d).filter (fun m => !(ignoreMemberPair d.ignoredFields m))
      (fs, { d with fieldsCache := some fs })

/-- AbstractDocument.fieldnamesToStore: the names of the members to export,
computed through the `_fieldnames` cache. -/
def fieldnamesToStore (d : DocR) : List String × DocR :=
  match d.fieldnamesCache with
  | some ns => (ns, d)
  | none =>
      let ns := ((getmembers d).filter
        (fun m => !(ignoreMemberPair d.ignoredFields m))).map (fun m => m.1)
      (ns, { d with fieldnamesCache := some ns })

/-- A direct write into the instance dict (`self.__dict__[key] = v`), as done
by fromSON: the `_id` slot is the document id, other underscore names land
among the private attributes, anything else is a business field. (A payload
key named `_modified`, `_ignoredFields`, `_fields` or `_fieldnames` would
overwrite the corresponding internal slot in Python; no claim involves such
adversarial payloads and the embedding files them with the private
attributes.) -/
def dictWrite (d : DocR) (k : String) (v : Value) : DocR :=
  if k == "_id" then { d with id := v }
  else if startsWithUnderscore k then
    { d with privateAttrs := setField d.privateAttrs k v }
  else { d with fields := setField d.fields k v }

/-- AbstractDocument.attributeModified: decides whether assigning `v` to the
attribute changes the SON representation, updating the field caches on the
way. The instance dict lookup raises KeyError for a new attribute; the
subsequent `self.__getattr__` call raises AttributeError (AbstractDocument
defines no getattr), landing in the new-attribute branch which invalidates
both caches and reports a change. The conjunction in the source
short-circuits: when the old and new values are equal, fieldnamesToStore is
not consulted. -/
def attributeModified (d : DocR) (name : String) (v : Value) : Bool × DocR :=
  match lookupField d.fields name with
  | some old =>
      if pyEq old v then (false, d)
      else
        let d1 := invalidateFieldsCache d
        let nd := fieldnamesToStore d1
        (nd.1.contains name, nd.2)
  | none =>
      let d1 := invalidateFieldsCache d
      (true, { d1 with fieldnamesCache := none })

/-- AbstractDocument setattr: when the attribute is not ignored (under the
degenerate string form of ignoreMember), `_modified` is overwritten with the
result of attributeModified, then the attribute is written into the instance
dict. -/
def pySetattr (d : DocR) (name : String) (v : Value) : DocR :=
  let d1 :=
    if !(ignoreMemberStr d.ignoredFields name) then
      let md := attributeModified d name v
      { md.2 with modified := md.1 }
    else d
  dictWrite d1 name v

/-- AbstractDocument.toSON: the `_id` entry when the id is not None, then the
fields to store, then the `_type` entry carrying the class name. -/
def toSON (d : DocR) : SON × DocR :=
  (setField
    ((fieldsToStore d).1.foldl (fun s kv => setField s kv.1 kv.2)
      (if !(pyEq d.id Value.vNull) then [("_id", d.id)] else []))
    "_type" (Value.vStr d.type_),
   (fieldsToStore d).2)

/-- AbstractDocument.fromSON: subscripting `_type` raises KeyError when the
key is absent; the assert comparing it with the class name raises
AssertionError on mismatch; then every entry except `_type` and
`_types_mapping` is copied into the instance dict and `_modified` is forced
to false. -/
def fromSON (d : DocR) (son : SON) : Except PyError DocR :=
  match lookupField son "_type" with
  | none => .error .keyError
  | some t =>
      if !(pyEq t (Value.vStr d.type_)) then .error .assertionError
      else
        let d1 := son.foldl
          (fun acc kv =>
            if kv.1 == "_type" || kv.1 == "_types_mapping" then acc
            else dictWrite acc kv.1 kv.2) d
        .ok { d1 with modified := false }

/-- lisogo ObjectCache: the enabled flag and the underlying dict, which maps
ObjectIds (keys validated on write) to live document instances. -/
structure ObjectCache : Type where
  is_enabled : Bool
  cache : List (Nat × DocR)
deriving Repr

/-- ObjectCache getitem: raises KeyError when disabled, else a plain dict
lookup (a key that is not an ObjectId is never stored, hence KeyError). A
`none` result models the raised KeyError. -/
def cacheGet (c : ObjectCache) (key : Value) : Option DocR :=
  if !c.is_enabled then none
  else
    match key with
    | Value.vOid n => (c.cache.find? (fun kv => kv.1 == n)).map (fun kv => kv.2)
    | _ => none

/-- Replace the binding of an ObjectId in the cache dict, or append it. -/
def setOid : List (Nat × DocR) → Nat → DocR → List (Nat × DocR)
  | [], n, v => [(n, v)]
  | kv :: rest, n, v => if kv.1 == n then (n, v) :: rest else kv :: setOid rest n v

/-- ObjectCache setitem: when disabled the write is dropped (the value is
returned); when enabled a key that is not an ObjectId raises TypeError, and
otherwise the binding is stored. -/
def cacheSet (c : ObjectCache) (key : Value) (v : DocR) : Except PyError ObjectCache :=
  if !c.is_enabled then .ok c
  else
    match key with
    | Value.vOid n => .ok { c with cache := setOid c.cache n v }
    | _ => .error .typeError

/-- ObjectCache contains: false when disabled, else dict membership. -/
def cacheContains (c : ObjectCache) (key : Value) : Bool :=
  c.is_enabled &&
    (match key with
     | Value.vOid n => (c.cache.find? (fun kv => kv.1 == n)).isSome
     | _ => false)

/-- ObjectCache len: zero when disabled. -/
def cacheLen (c : ObjectCache) : Nat :=
  if !c.is_enabled then 0 else c.cache.length

/-- ObjectCache iter: an empty iterator when disabled, else the dict keys. -/
def cacheIterKeys (c : ObjectCache) : List Nat :=
  if !c.is_enabled then [] else c.cache.map (fun kv => kv.1)

/-- ObjectCache delitem: a plain dict delete with no enabled check. -/
def cacheDel (c : ObjectCache) (n : Nat) : Except PyError ObjectCache :=
  if (c.cache.find? (fun kv => kv.1 == n)).isSome then
    .ok { c with cache := c.cache.eraseP (fun kv => kv.1 == n) }
  else .error .keyError

/-- collections.MutableMapping.popitem as inherited by ObjectCache: take the
first key of iter(self) (an exhausted iterator turns into KeyError), read the
value through getitem, delete it through delitem. -/
def cachePopitem (c : ObjectCache) : Except PyError (Nat × ObjectCache) :=
  match (cacheIterKeys c).head? with
  | none => .error .keyError
  | some k =>
      match cacheGet c (Value.vOid k) with
      | none => .error .keyError
      | some _ =>
          match cacheDel c k with
          | .ok c1 => .ok (k, c1)
          | .error e => .error e

/-- The popitem loop of collections.MutableMapping.clear, run with enough
steps: each successful popitem removes one entry, so length + 1 steps always
reach the terminating KeyError. -/
def cacheClearLoop : Nat → ObjectCache → ObjectCache
  | 0, c => c
  | n + 1, c =>
      match cachePopitem c with
      | .error _ => c
      | .ok kc => cacheClearLoop n kc.2

/-- collections.MutableMapping.clear as inherited by ObjectCache: popitem
until KeyError. -/
def cacheClear (c : ObjectCache) : ObjectCache :=
  cacheClearLoop (c.cache.length + 1) c

/-- A concrete document class of the configured module: its name, the
collection name its collection() method returns (none models returning
None), and the field assignments performed by its zero-argument
constructor. -/
structure DocClass : Type where
  name : String
  collName : Option String
  initFields : List (String × Value)
deriving Repr

/-- The driver and ODM state: the raw data store (documents per collection
name), the registry of per-collection caches held by the Database through
its ObjectCacheCollection, the Database cache and lazy-loading toggles, the
document classes of the module configured on the DocumentTransformer, and
the counters supplying fresh ObjectIds and fresh instance identities. -/
structure DB : Type where
  store : List (String × List SON)
  cacheRegistry : List (String × ObjectCache)
  cacheEnabled : Bool
  lazyLoading : Bool
  module : List DocClass
  nextOid : Nat
  nextIid : Nat
deriving Repr

/-- The raw documents of a collection. -/
def storeGet (db : DB) (cn : String) : List SON :=
  match db.store.find? (fun kv => kv.1 == cn) with
  | some kv => kv.2
  | none => []

/-- Replace the binding of a collection in an association list. -/
def setStore : List (String × List SON) → String → List SON → List (String × List SON)
  | [], cn, docs => [(cn, docs)]
  | kv :: rest, cn, docs =>
      if kv.1 == cn then (cn, docs) :: rest else kv :: setStore rest cn docs

/-- Overwrite the raw documents of a collection. -/
def storeSetList (db : DB) (cn : String) (docs : List SON) : DB :=
  { db with store := setStore db.store cn docs }

/-- Append a raw document to a collection. -/
def storeAppend (db : DB) (cn : String) (son : SON) : DB :=
  storeSetList db cn (storeGet db cn ++ [son])

/-- The ObjectCache registered for a collection name, if any. -/
def registryGetCache (db : DB) (name : String) : Option ObjectCache :=
  match db.cacheRegistry.find? (fun kv => kv.1 == name) with
  | some kv => some kv.2
  | none => none

/-- Replace the cache binding of a collection name in the registry. -/
def setRegistry : List (String × ObjectCache) → String → ObjectCache →
    List (String × ObjectCache)
  | [], n, c => [(n, c)]
  | kv :: rest, n, c =>
      if kv.1 == n then (n, c) :: rest else kv :: setRegistry rest n c

/-- Store a cache in the registry (ObjectCacheCollection.set_cache). -/
def registrySetCache (db : DB) (name : String) (c : ObjectCache) : DB :=
  { db with cacheRegistry := setRegistry db.cacheRegistry name c }

/-- A collection adapter handle: the mongo_client.Collection decorates a raw
collection with a cache; when the Database cache toggle is on, the cache is
the shared registry cache of the collection name, otherwise the adapter is
built with a private ObjectCache constructed disabled, in which every write
is dropped and every read misses. -/
structure CollHandle : Type where
  name : String
  hasRegistryCache : Bool
deriving Repr

/-- Database getattr(name): hand out a collection adapter; when caching is
enabled, bind it to the registry cache of that name, creating the cache
(enabled, empty) on first use; otherwise the adapter keeps its private
disabled cache. -/
def dbGetCollection (db : DB) (name : String) : CollHandle × DB :=
  if db.cacheEnabled then
    match registryGetCache db name with
    | some _ => (⟨name, true⟩, db)
    | none => (⟨name, true⟩, registrySetCache db name ⟨true, []⟩)
  else (⟨name, false⟩, db)

/-- Read through the cache of a collection adapter. -/
def handleCacheGet (db : DB) (h : CollHandle) (key : Value) : Option DocR :=
  if h.hasRegistryCache then
    match registryGetCache db h.name with
    | some c => cacheGet c key
    | none => none
  else none

/-- Write through the cache of a collection adapter; writes to the private
disabled cache of an adapter issued while caching was off are dropped. -/
def handleCacheSet (db : DB) (h : CollHandle) (key : Value) (v : DocR) :
    Except PyError DB :=
  if h.hasRegistryCache then
    match registryGetCache db h.name with
    | some c =>
        match cacheSet c key v with
        | .ok c1 => .ok (registrySetCache db h.name c1)
        | .error e => .error e
    | none => .ok db
  else .ok db

/-- Database.disable_cache: flip the toggle off and disable every cache of
the registry (the entries themselves are kept). -/
def dbDisableCache (db : DB) : DB :=
  if db.cacheEnabled then
    { db with
      cacheEnabled := false,
      cacheRegistry := db.cacheRegistry.map
        (fun kv => (kv.1, { kv.2 with is_enabled := false })) }
  else db

/-- Database.enable_cache: flip the toggle on and re-enable every registered
cache. -/
def dbEnableCache (db : DB) : DB :=
  if !db.cacheEnabled then
    { db with
      cacheEnabled := true,
      cacheRegistry := db.cacheRegistry.map
        (fun kv => (kv.1, { kv.2 with is_enabled := true })) }
  else db

/-- Construct a bare AbstractDocument state: empty id, not modified, the
default ignore list, an empty instance dict, no caches. -/
def baseInit (cls : DocClass) (iid : Nat) : DocR :=
  ⟨cls.name, cls.collName, Value.vNull, false, ["id", "modified"], [], [], none, none, iid⟩

/-- Construct an instance of a document class through its zero-argument
constructor: the base init followed by the constructor field assignments,
each going through setattr. -/
def newDoc (cls : DocClass) (iid : Nat) : DocR :=
  cls.initFields.foldl (fun d kv => pySetattr d kv.1 kv.2) (baseInit cls iid)

/-- DocumentTransformer create document from doctype: resolve the type name
in the configured module (a failed getattr raises AttributeError; getattr
with a non-string name raises TypeError) and call its zero-argument
constructor, consuming a fresh instance identity. -/
def createDocumentFromDoctype (db : DB) (doctype : Value) :
    Except PyError (DocR × DB) :=
  match doctype with
  | Value.vStr s =>
      match db.module.find? (fun c => c.name == s) with
      | none => .error .attributeError
      | some cls => .ok (newDoc cls db.nextIid, { db with nextIid := db.nextIid + 1 })
  | _ => .error .typeError

/-- Whether every constraint of a query spec holds of a raw document
(equality matching, the only query shape the code under study issues). -/
def matchSpec (spec : SON) (doc : SON) : Bool :=
  spec.all (fun kv =>
    match lookupField doc kv.1 with
    | some v => pyEq v kv.2
    | none => false)

/-- Replace the first raw document satisfying a predicate. -/
def replaceFirst : List SON → (SON → Bool) → SON → List SON
  | [], _, _ => []
  | d :: rest, p, son => if p d then son :: rest else d :: replaceFirst rest p son

/-- Replace the binding of a key in a string-to-string dict, or append. -/
def setStrField : List (String × String) → String → String →
    List (String × String)
  | [], k, v => [(k, v)]
  | kv :: rest, k, v =>
      if kv.1 == k then (k, v) :: rest else kv :: setStrField rest k v

mutual
/-- DocumentTransformer.transform_incoming: walk the items of the SON object,
transforming nested dicts recursively, saving and referencing nested
documents that have a collection (when a target collection is given),
embedding the others through toSON; when at least one reference was recorded,
attach the accumulated types mapping under the `_types_mapping` key. -/
def transformIncoming : Nat → SON → Option String → DB →
    Except PyError (SON × DB)
  | 0, _, _, _ => .error .fuelOut
  | fuel + 1, son, coll, db =>
      match tiEntries fuel son coll [] db with
      | .error e => .error e
      | .ok (entries, tm, db1) =>
          if tm.isEmpty then .ok (entries, db1)
          else
            .ok (setField entries "_types_mapping"
              (Value.vMap (tm.map (fun p => (p.1, Value.vStr p.2)))), db1)

/-- The entry loop of transform_incoming, threading the local types mapping
(a dict: later records for the same stringified id overwrite earlier ones)
and the driver state. A dict value is transformed recursively and is not a
document, so the loop continues; a document value with a collection (when the
target collection argument is not None; evaluating value.collection on the
database creates the per-collection cache as a side effect of Database
getattr) is saved and replaced by its id, recording its type; any other
document value is embedded through toSON; all remaining values are left
untouched. -/
def tiEntries : Nat → List (String × Value) → Option String →
    List (String × String) → DB →
    Except PyError (List (String × Value) × List (String × String) × DB)
  | 0, _, _, _, _ => .error .fuelOut
  | _ + 1, [], _, tm, db => .ok ([], tm, db)
  | fuel + 1, (k, v) :: rest, coll, tm, db =>
      match v with
      | Value.vMap m =>
          match transformIncoming fuel m coll db with
          | .error e => .error e
          | .ok (m1, db1) =>
              match tiEntries fuel rest coll tm db1 with
              | .error e => .error e
              | .ok (rest1, tm1, db2) => .ok ((k, Value.vMap m1) :: rest1, tm1, db2)
      | v =>
          match v.asDoc with
          | none =>
              match tiEntries fuel rest coll tm db with
              | .error e => .error e
              | .ok (rest1, tm1, db1) => .ok ((k, v) :: rest1, tm1, db1)
          | some b =>
              match coll, b.collName with
              | some _, some bcn =>
                  let db1 := (dbGetCollection db bcn).2
                  match docSave fuel b db1 with
                  | .error e => .error e
                  | .ok (b1, db2) =>
                      match tiEntries fuel rest coll
                          (setStrField tm (pyStr b1.id) b.type_) db2 with
                      | .error e => .error e
                      | .ok (rest1, tm1, db3) => .ok ((k, b1.id) :: rest1, tm1, db3)
              | _, _ =>
                  match tiEntries fuel rest coll tm db with
                  | .error e => .error e
                  | .ok (rest1, tm1, db1) =>
                      .ok ((k, Value.vMap (toSON b).1) :: rest1, tm1, db1)

/-- AbstractDocument.save: return self unchanged when not modified; raise
PersistError when collection() yields None; otherwise delegate to the
collection adapter save, write the returned id into `_id` and force
`_modified` to false. -/
def docSave : Nat → DocR → DB → Except PyError (DocR × DB)
  | 0, _, _ => .error .fuelOut
  | fuel + 1, d, db =>
      if !d.modified then .ok (d, db)
      else
        match d.collName with
        | none => .error .persistError
        | some cn =>
            let hd := dbGetCollection db cn
            match adapterSave fuel hd.1 d hd.2 with
            | .error e => .error e
            | .ok (result, d1, db1) =>
                .ok ({ d1 with id := result, modified := false }, db1)

/-- mongo_client.Collection.save for a document instance (the only shape the
code under study passes): serialize through toSON (the manipulators run
inside the raw primitive since manipulate is True), delegate to the pymongo
save, and on a truthy result write the id back onto the instance and
populate the cache with it. -/
def adapterSave : Nat → CollHandle → DocR → DB →
    Except PyError (Value × DocR × DB)
  | 0, _, _, _ => .error .fuelOut
  | fuel + 1, h, to_save, db =>
      let sd := toSON to_save
      match pymongoSave fuel h.name sd.1 db with
      | .error e => .error e
      | .ok (result, db1) =>
          if isTruthy result then
            let saved := { sd.2 with id := result }
            match handleCacheSet db1 h result saved with
            | .error e => .error e
            | .ok db2 => .ok (result, saved, db2)
          else .ok (result, sd.2, db1)

/-- pymongo.collection.Collection.save: insert when the SON has no `_id`;
otherwise an upsert update of the document matching that `_id` (the update
applies the incoming manipulators to the document, mutating it in place),
returning the possibly manipulated `_id` entry. -/
def pymongoSave : Nat → String → SON → DB → Except PyError (Value × DB)
  | 0, _, _, _ => .error .fuelOut
  | fuel + 1, cn, son, db =>
      match lookupField son "_id" with
      | none => pymongoInsert fuel cn son db
      | some i =>
          match fixIncoming fuel cn son db with
          | .error e => .error e
          | .ok (son1, db1) =>
              let docs := storeGet db1 cn
              let docs1 :=
                if docs.any (fun d => matchSpec [("_id", i)] d) then
                  replaceFirst docs (fun d => matchSpec [("_id", i)] d) son1
                else docs ++ [son1]
              .ok ((lookupField son1 "_id").getD Value.vNull,
                storeSetList db1 cn docs1)

/-- pymongo.collection.Collection.insert for a single SON document: apply the
incoming manipulators, generate a fresh ObjectId when the document carries no
`_id`, store the document, return the id. -/
def pymongoInsert : Nat → String → SON → DB → Except PyError (Value × DB)
  | 0, _, _, _ => .error .fuelOut
  | fuel + 1, cn, son, db =>
      match fixIncoming fuel cn son db with
      | .error e => .error e
      | .ok (son1, db1) =>
          match lookupField son1 "_id" with
          | some i => .ok (i, storeAppend db1 cn son1)
          | none =>
              let oid := Value.vOid db1.nextOid
              .ok (oid, storeAppend { db1 with nextOid := db1.nextOid + 1 } cn
                (setField son1 "_id" oid))

/-- Database fix_incoming: apply the DocumentTransformer incoming transform
(the only SON manipulator the code under study installs). -/
def fixIncoming : Nat → String → SON → DB → Except PyError (SON × DB)
  | 0, _, _, _ => .error .fuelOut
  | fuel + 1, cn, son, db => transformIncoming fuel son (some cn) db
end

mutual
/-- DocumentTransformer.transform_outgoing: walk the items snapshot of the
SON object, mutating it in place (the threaded current dict): ObjectId
values are resolved through the types mapping of the current dict into a
lazy placeholder or an eagerly retrieved document, a missing mapping or a
missing tag (KeyError) leaving the value untouched; dict values carrying a
`_type` are instantiated and populated through fromSON; other dict values
are transformed recursively. -/
def transformOutgoing : Nat → SON → DB → Except PyError (SON × DB)
  | 0, _, _ => .error .fuelOut
  | fuel + 1, son, db => toEntries fuel son son db

/-- The entry loop of transform_outgoing over the items snapshot, with the
current state of the mutated dict threaded through. The try block around the
reference resolution turns any KeyError raised inside it (a missing
`_types_mapping`, a missing tag, or a KeyError escaping the eager retrieve)
into leaving the entry untouched; every other error propagates. -/
def toEntries : Nat → List (String × Value) → SON → DB →
    Except PyError (SON × DB)
  | 0, _, _, _ => .error .fuelOut
  | _ + 1, [], cur, db => .ok (cur, db)
  | fuel + 1, (k, v) :: rest, cur, db =>
      match v with
      | Value.vOid n =>
          match resolveReference fuel cur n db with
          | .error PyError.keyError => toEntries fuel rest cur db
          | .error e => .error e
          | .ok (v1, db1) => toEntries fuel rest (setField cur k v1) db1
      | Value.vMap m =>
          if containsKey m "_type" then
            match lookupField m "_type" with
            | some doctype =>
                match createDocumentFromDoctype db doctype with
                | .error e => .error e
                | .ok (document, db1) =>
                    match fromSON document m with
                    | .error e => .error e
                    | .ok document1 =>
                        toEntries fuel rest (setField cur k document1.val) db1
            | none => toEntries fuel rest cur db
          else
            match transformOutgoing fuel m db with
            | .error e => .error e
            | .ok (m1, db1) => toEntries fuel rest (setField cur k (Value.vMap m1)) db1
      | _ => toEntries fuel rest cur db

/-- The try block of the ObjectId branch of transform_outgoing: look the
stringified id up in the `_types_mapping` of the current dict (a missing key
raises KeyError; subscripting a non-dict raises TypeError), instantiate the
recorded type, then either build a DocumentPlaceholder bound to that type
collection (evaluating document.collection on the database, which creates
the per-collection cache as a side effect) or eagerly retrieve the document
from the database. -/
def resolveReference : Nat → SON → Nat → DB → Except PyError (Value × DB)
  | 0, _, _, _ => .error .fuelOut
  | fuel + 1, cur, n, db =>
      match lookupField cur "_types_mapping" with
      | none => .error .keyError
      | some (Value.vMap tm) =>
          match lookupField tm (pyStr (Value.vOid n)) with
          | none => .error .keyError
          | some doctype =>
              match createDocumentFromDoctype db doctype with
              | .error e => .error e
              | .ok (document, db1) =>
                  if db1.lazyLoading then
                    match document.collName with
                    | some dcn =>
                        .ok (Value.vPlaceholder (some dcn) n,
                          (dbGetCollection db1 dcn).2)
                    | none => .ok (Value.vPlaceholder none n, db1)
                  else
                    match docRetrieve fuel document (Value.vOid n) db1 with
                    | (.error e, _, _) => .error e
                    | (.ok _, document1, db2) => .ok (document1.val, db2)
      | some _ => .error .typeError

/-- AbstractDocument.retrieve: raise RetrieveError when collection() yields
None (for a concrete class, evaluating collection() creates the
per-collection cache as a side effect) or when a dict spec lacks an `_id`;
run the original pymongo find limited to a single result, each yielded
document going through the outgoing manipulators; raise NotFoundError when
nothing (or a falsy document) was found; otherwise populate self through
fromSON. The document state is returned alongside the outcome: on every
error path it is the state at the raise point. -/
def docRetrieve : Nat → DocR → Value → DB → (Except PyError Unit) × DocR × DB
  | 0, d, _, db => (.error .fuelOut, d, db)
  | fuel + 1, d, spec_or_id, db =>
      match d.collName with
      | none => (.error .retrieveError, d, db)
      | some cn =>
          let db1 := (dbGetCollection db cn).2
          match
            (match spec_or_id with
             | Value.vMap m =>
                 if containsKey m "_id" then Except.ok m
                 else Except.error PyError.retrieveError
             | v => Except.ok [("_id", v)]) with
          | .error e => (.error e, d, db1)
          | .ok spec =>
              match ((storeGet db1 cn).filter (fun s => matchSpec spec s)).head? with
              | none => (.error .notFoundError, d, db1)
              | some raw =>
                  match fixOutgoing fuel raw db1 with
                  | .error e => (.error e, d, db1)
                  | .ok (found, db2) =>
                      if found.isEmpty then (.error .notFoundError, d, db2)
                      else
                        match fromSON d found with
                        | .error e => (.error e, d, db2)
                        | .ok d1 => (.ok (), d1, db2)

/-- Database fix_outgoing: apply the DocumentTransformer outgoing transform
to a document fetched from the store. -/
def fixOutgoing : Nat → SON → DB → Except PyError (SON × DB)
  | 0, _, _ => .error .fuelOut
  | fuel + 1, son, db => transformOutgoing fuel son db
end

/-- mongo_client.Collection unserialize: a document without `_type` is
returned as the raw dict; otherwise the recorded type is instantiated
through the transformer and populated through fromSON. -/
def unserialize (son : SON) (db : DB) : Except PyError (Value × DB) :=
  match lookupField son "_type" with
  | none => .ok (Value.vMap son, db)
  | some doctype =>
      match createDocumentFromDoctype db doctype with
      | .error e => .error e
      | .ok (inst, db1) =>
          match fromSON inst son with
          | .error e => .error e
          | .ok inst1 => .ok (inst1.val, db1)

/-- The state of a mongo_client.Cursor: the collection it items over (with
the cache binding of its adapter), the query spec, projection, skip and
manipulate parameters, the iteration position in the raw result set, and the
unique-already-returned latch of the cache fast path. -/
structure CursorSt : Type where
  collName : String
  hasRegistryCache : Bool
  spec : SON
  fields : Option (List String)
  skipN : Nat
  manipulate : Bool
  pos : Nat
  uniqueAlreadyReturned : Bool
deriving Repr

/-- pymongo.cursor.Cursor.next: the next raw document matching the spec
(after skip), run through the outgoing manipulators when manipulate is set;
StopIteration when the result set is exhausted. Projections are not modeled:
every claim under study issues finds without projection. -/
def pymongoCursorNext (fuel : Nat) (cur : CursorSt) (db : DB) :
    Except PyError (SON × CursorSt × DB) :=
  let ms := ((storeGet db cur.collName).filter
    (fun s => matchSpec cur.spec s)).drop cur.skipN
  match (ms.drop cur.pos).head? with
  | none => .error .stopIteration
  | some raw =>
      let cur1 := { cur with pos := cur.pos + 1 }
      if cur.manipulate then
        match fixOutgoing fuel raw db with
        | .error e => .error e
        | .ok (son, db1) => .ok (son, cur1, db1)
      else .ok (raw, cur1, db)

/-- mongo_client.Cursor.next: when the query has no projection, no skip and a
truthy spec, first consult the collection cache under the spec id (raising
StopIteration if this fast path already produced its single result; a
missing `_id` in the spec or a cache miss is a caught KeyError); otherwise
fetch the next raw document, try the cache again under the fetched id, and
fall back to unserializing the (already manipulated, since manipulate holds)
document. -/
def cursorNext (fuel : Nat) (cur : CursorSt) (db : DB) :
    Except PyError (Value × CursorSt × DB) :=
  let h : CollHandle := ⟨cur.collName, cur.hasRegistryCache⟩
  let fast : Option (Except PyError DocR) :=
    if cur.fields.isNone && cur.skipN == 0 && !cur.spec.isEmpty then
      if cur.uniqueAlreadyReturned then some (.error .stopIteration)
      else
        match lookupField cur.spec "_id" with
        | none => none
        | some key =>
            match handleCacheGet db h key with
            | some doc => some (.ok doc)
            | none => none
    else none
  match fast with
  | some (.error e) => .error e
  | some (.ok doc) => .ok (doc.val, { cur with uniqueAlreadyReturned := true }, db)
  | none =>
      match pymongoCursorNext fuel cur db with
      | .error e => .error e
      | .ok (document, cur1, db1) =>
          match
            (if cur1.fields.isNone then
               match lookupField document "_id" with
               | some k => handleCacheGet db1 h k
               | none => none
             else none) with
          | some doc => .ok (doc.val, cur1, db1)
          | none =>
              match
                (if cur1.manipulate then Except.ok (document, db1)
                 else fixOutgoing fuel document db1) with
              | .error e => .error e
              | .ok (document1, db2) =>
                  match unserialize document1 db2 with
                  | .error e => .error e
                  | .ok (v, db3) => .ok (v, cur1, db3)

/-- mongo_client.Collection.find: build a decorated cursor over this
collection with the given spec (no projection, no skip, manipulate on). -/
def collectionFind (h : CollHandle) (spec : SON) : CursorSt :=
  ⟨h.name, h.hasRegistryCache, spec, none, 0, true, 0, false⟩

/-- mongo_client.Collection.insert for a single document instance:
serialize through toSON (manipulate is True, so the manipulators run inside
the raw insert), delegate, and on a truthy result write the generated id
onto the instance and populate the cache with it. -/
def collectionInsert (fuel : Nat) (h : CollHandle) (d : DocR) (db : DB) :
    Except PyError (Value × DocR × DB) :=
  let sd := toSON d
  match pymongoInsert fuel h.name sd.1 db with
  | .error e => .error e
  | .ok (result, db1) =>
      if isTruthy result then
        let d1 := { sd.2 with id := result }
        match handleCacheSet db1 h result d1 with
        | .error e => .error e
        | .ok db2 => .ok (result, d1, db2)
      else .ok (result, sd.2, db1)

/-
  Concrete fixtures, mirroring the stub classes of the test suite.
-/

/-- A concrete document class in the shape of the ConcreteDocument test stub:
stored in concrete_collection, constructor assigning foo and bar. -/
def ConcreteDocumentCls : DocClass :=
  ⟨"ConcreteDocument", some "concrete_collection",
   [("foo", Value.vStr ""), ("bar", Value.vStr "")]⟩

/-- A nested-only document class whose zero-argument constructor assigns no
field, so that a fresh instance is not modified. -/
def EmptyNestedCls : DocClass := ⟨"EmptyNested", none, []⟩

/-- A document class with its own collection and no constructor assignment. -/
def ReferencedCls : DocClass := ⟨"Referenced", some "refs", []⟩

/-- A driver state over an empty store with these classes as the configured
module, caching and lazy loading enabled. -/
def sampleDB : DB :=
  ⟨[], [], true, true, [ConcreteDocumentCls, EmptyNestedCls, ReferencedCls], 0, 100⟩

/-- A ConcreteDocument freshly populated through fromSON with foo = a and
bar = b (so its modified flag is false). -/
def c1Loaded : DocR :=
  match fromSON (newDoc ConcreteDocumentCls 7)
      [("foo", Value.vStr "a"), ("bar", Value.vStr "b"),
       ("_type", Value.vStr "ConcreteDocument")] with
  | .ok d => d
  | .error _ => newDoc ConcreteDocumentCls 7

/-- C1: the claim states the modified flag is sticky true until the next
fromSON or save. The code disagrees: setattr overwrites `_modified` with the
result of attributeModified on every non-ignored assignment, so after a real
modification (foo set from a to x, modified true), re-assigning the same
field to its current value x, or another field to its current value, resets
modified to false even though the document still differs from its loaded
state. The first two conjuncts check the parts of the claim the code does
satisfy; the last two evaluate the code at the failing inputs. -/
theorem c1_modified_flag_is_not_sticky :
    c1Loaded.modified = false
    ∧ (pySetattr c1Loaded "foo" (Value.vStr "x")).modified = true
    ∧ (pySetattr (pySetattr c1Loaded "foo" (Value.vStr "x")) "foo"
        (Value.vStr "x")).modified = false
    ∧ (pySetattr (pySetattr c1Loaded "foo" (Value.vStr "x")) "bar"
        (Value.vStr "b")).modified = false :=
  ⟨rfl, rfl, rfl, rfl⟩

/-- C4: fromSON on an instance whose class name differs from the `_type` of
the payload always fails with the type-mismatch error (the failed assert,
AssertionError in the source, the TypeMismatchError condition of the spec),
whatever the rest of the payload; and fromSON on a payload with no `_type`
fails with the missing-field error (KeyError). -/
theorem c4_fromSON_type_check (d : DocR) (son : SON) :
    (∀ y, lookupField son "_type" = some (Value.vStr y) → y ≠ d.type_ →
      fromSON d son = .error .assertionError)
    ∧ (lookupField son "_type" = none → fromSON d son = .error .keyError) := by
  constructor
  · intro y hl hne
    unfold fromSON
    rw [hl]
    simp [pyEq, hne]
  · intro hl
    unfold fromSON
    rw [hl]

/-- Witness for C4 at a concrete mismatched payload and a concrete payload
missing its type tag. -/
theorem c4_fromSON_type_check_witness :
    (lookupField [("_type", Value.vStr "Other")] "_type"
        = some (Value.vStr "Other")
      ∧ "Other" ≠ (newDoc ConcreteDocumentCls 0).type_
      ∧ fromSON (newDoc ConcreteDocumentCls 0) [("_type", Value.vStr "Other")]
          = .error .assertionError)
    ∧ (lookupField [("foo", Value.vStr "a")] "_type" = none
      ∧ fromSON (newDoc ConcreteDocumentCls 0) [("foo", Value.vStr "a")]
          = .error .keyError) := by
  refine ⟨⟨rfl, by decide, ?_⟩, ⟨rfl, ?_⟩⟩
  · exact (c4_fromSON_type_check _ _).1 "Other" rfl (by decide)
  · exact (c4_fromSON_type_check _ _).2 rfl

/-- C5 counterexample: for a nested-only document type, the claim says save
always fails with PersistError; but save returns self unchanged, with no
error, whenever the document is not modified — the not-modified early return
precedes the collection check. A fresh instance of a nested-only class whose
constructor assigns nothing is such an input. -/
theorem c5_counterexample_unmodified_save_is_noop :
    (newDoc EmptyNestedCls 1).collName = none
    ∧ (newDoc EmptyNestedCls 1).modified = false
    ∧ docSave 5 (newDoc EmptyNestedCls 1) sampleDB
        = .ok (newDoc EmptyNestedCls 1, sampleDB) :=
  ⟨rfl, rfl, rfl⟩

/-- C5 amended: for every document whose collection() yields the
no-collection marker, save fails with PersistError whenever the document is
modified (an unmodified document is returned unchanged without touching the
collection), and retrieve fails with RetrieveError for every input. -/
theorem c5_nested_only_save_retrieve_errors (f : Nat) (d : DocR) (db : DB)
    (spec : Value) (hcoll : d.collName = none) :
    (d.modified = true → docSave (f + 1) d db = .error .persistError)
    ∧ (docRetrieve (f + 1) d spec db).1 = .error .retrieveError := by
  constructor
  · intro hm
    simp [docSave, hm, hcoll]
  · simp [docRetrieve, hcoll]

/-- A modified instance of a nested-only class. -/
def c5wDoc : DocR := newDoc ⟨"NestedDocument", none, [("foo", Value.vStr "")]⟩ 0

/-- Witness for the amended C5 at a concrete modified nested-only document. -/
theorem c5_nested_only_witness :
    c5wDoc.collName = none ∧ c5wDoc.modified = true
    ∧ docSave 1 c5wDoc sampleDB = .error .persistError
    ∧ (docRetrieve 1 c5wDoc (Value.vStr "x") sampleDB).1
        = .error .retrieveError := by
  refine ⟨rfl, rfl, ?_, ?_⟩
  · exact (c5_nested_only_save_retrieve_errors 0 c5wDoc sampleDB
      (Value.vStr "x") rfl).1 rfl
  · exact (c5_nested_only_save_retrieve_errors 0 c5wDoc sampleDB
      (Value.vStr "x") rfl).2

/-- A document instance used as a cache entry payload. -/
def cacheEntryDoc : DocR := baseInit ConcreteDocumentCls 0

/-- A disabled cache still holding one entry (stored while it was enabled). -/
def c6DisabledCache : ObjectCache := ⟨false, [(5, cacheEntryDoc)]⟩

/-- C6 counterexample: the claim says clear empties the underlying storage
whether the cache is enabled or disabled, so that after clear and re-enable
no previously stored entry is visible. But the inherited
MutableMapping.clear pops through iter, which yields nothing while the cache
is disabled, so clear on a disabled cache is a no-op: the entry survives and
becomes visible again after re-enabling. -/
theorem c6_counterexample_clear_while_disabled :
    cacheClear c6DisabledCache = c6DisabledCache
    ∧ cacheContains { cacheClear c6DisabledCache with is_enabled := true }
        (Value.vOid 5) = true :=
  ⟨rfl, rfl⟩

/-- Popping an enabled, non-empty cache removes exactly its first entry. -/
theorem cachePopitem_enabled_cons (kv : Nat × DocR) (rest : List (Nat × DocR)) :
    cachePopitem ⟨true, kv :: rest⟩ = .ok (kv.1, ⟨true, rest⟩) := by
  simp [cachePopitem, cacheIterKeys, cacheGet, cacheDel, List.find?, List.eraseP]

/-- The popitem loop of MutableMapping.clear empties an enabled cache within
length + 1 steps. -/
theorem cacheClearLoop_enabled (n : Nat) :
    ∀ c : ObjectCache, c.is_enabled = true → c.cache.length ≤ n →
      (cacheClearLoop (n + 1) c).cache = [] := by
  induction n with
  | zero =>
      intro c he hl
      obtain ⟨e, l⟩ := c
      cases he
      cases l with
      | nil => rfl
      | cons kv rest => simp at hl
  | succ n ih =>
      intro c he hl
      obtain ⟨e, l⟩ := c
      cases he
      cases l with
      | nil => rfl
      | cons kv rest =>
          rw [cacheClearLoop, cachePopitem_enabled_cons]
          exact ih ⟨true, rest⟩ rfl (by simpa using Nat.le_of_succ_le_succ hl)

/-- C6 amended: clear empties the underlying storage when the cache is
enabled; when the cache is disabled, clear is a no-op (the inherited
popitem loop sees an empty iterator and stops at once), so previously
stored entries are hidden, not removed. -/
theorem c6_clear_depends_on_enabled (c : ObjectCache) :
    (c.is_enabled = true → (cacheClear c).cache = [])
    ∧ (c.is_enabled = false → cacheClear c = c) := by
  constructor
  · intro he
    exact cacheClearLoop_enabled c.cache.length c he (Nat.le_refl _)
  · intro he
    obtain ⟨e, l⟩ := c
    cases he
    rfl

/-- Witness for the amended C6 on a concrete enabled and a concrete disabled
cache. -/
theorem c6_clear_witness :
    ((⟨true, [(3, cacheEntryDoc)]⟩ : ObjectCache).is_enabled = true
      ∧ (cacheClear ⟨true, [(3, cacheEntryDoc)]⟩).cache = [])
    ∧ ((⟨false, [(3, cacheEntryDoc)]⟩ : ObjectCache).is_enabled = false
      ∧ cacheClear ⟨false, [(3, cacheEntryDoc)]⟩
          = (⟨false, [(3, cacheEntryDoc)]⟩ : ObjectCache)) := by
  refine ⟨⟨rfl, ?_⟩, ⟨rfl, ?_⟩⟩
  · exact (c6_clear_depends_on_enabled _).1 rfl
  · exact (c6_clear_depends_on_enabled _).2 rfl

/-- C9 counterexample: the claim says every cache write with a key that is
not an ObjectId fails with the invalid-key error, for every cache state; but
a disabled cache returns before any key validation, dropping the write with
no error. -/
theorem c9_counterexample_disabled_write_unchecked :
    cacheSet ⟨false, []⟩ (Value.vStr "bad") cacheEntryDoc
      = .ok (⟨false, []⟩ : ObjectCache) :=
  rfl

/-- C9 amended: a write to an enabled cache with a key that is not an
ObjectId fails with the invalid-key error (TypeError in the source); a write
to a disabled cache is dropped without key validation. -/
theorem c9_cache_key_validation (c : ObjectCache) (key : Value) (v : DocR) :
    (c.is_enabled = true → (∀ n, key ≠ Value.vOid n) →
      cacheSet c key v = .error .typeError)
    ∧ (c.is_enabled = false → cacheSet c key v = .ok c) := by
  constructor
  · intro he hk
    cases key <;> simp_all [cacheSet]
  · intro he
    simp [cacheSet, he]

/-- Witness for the amended C9 at a concrete enabled cache and string key. -/
theorem c9_cache_key_validation_witness :
    ((⟨true, []⟩ : ObjectCache).is_enabled = true
      ∧ cacheSet ⟨true, []⟩ (Value.vStr "bad") cacheEntryDoc
          = .error .typeError)
    ∧ ((⟨false, []⟩ : ObjectCache).is_enabled = false
      ∧ cacheSet ⟨false, []⟩ (Value.vStr "bad") cacheEntryDoc
          = .ok (⟨false, []⟩ : ObjectCache)) := by
  refine ⟨⟨rfl, ?_⟩, ⟨rfl, ?_⟩⟩
  · exact (c9_cache_key_validation _ _ _).1 rfl (fun n h => by cases h)
  · exact (c9_cache_key_validation _ _ _).2 rfl

/-- On every error outcome of retrieve, the document part of the result is
the untouched input document: fromSON only runs after a successful lookup,
and itself mutates nothing before succeeding. -/
theorem docRetrieve_err_doc (fuel : Nat) (d : DocR) (spec : Value) (db : DB) :
    (docRetrieve fuel d spec db).1 = .ok ()
    ∨ (docRetrieve fuel d spec db).2.1 = d := by
  cases fuel with
  | zero => right; rfl
  | succ f =>
      simp only [docRetrieve]
      split
      · right; rfl
      · split
        · right; rfl
        · split
          · right; rfl
          · split
            · right; rfl
            · split
              · right; rfl
              · split
                · right; rfl
                · left; rfl

/-- C10: when retrieve fails with NotFoundError, the target document is
unchanged: its business fields, id and modified flag are exactly those it
had before the call. -/
theorem c10_retrieve_atomic_on_not_found (fuel : Nat) (d : DocR) (spec : Value)
    (db : DB)
    (h : (docRetrieve fuel d spec db).1 = .error .notFoundError) :
    (docRetrieve fuel d spec db).2.1 = d := by
  rcases docRetrieve_err_doc fuel d spec db with hok | hd
  · rw [hok] at h
    cases h
  · exact hd

/-- Witness for C10: a retrieve against an empty store raises NotFoundError
and leaves the document untouched. -/
theorem c10_retrieve_atomic_witness :
    (docRetrieve 3 (newDoc ConcreteDocumentCls 55) (Value.vOid 99) sampleDB).1
        = .error .notFoundError
    ∧ (docRetrieve 3 (newDoc ConcreteDocumentCls 55) (Value.vOid 99)
        sampleDB).2.1 = newDoc ConcreteDocumentCls 55 :=
  ⟨rfl, c10_retrieve_atomic_on_not_found 3 (newDoc ConcreteDocumentCls 55)
    (Value.vOid 99) sampleDB rfl⟩

/-
  Generic dictionary lemmas.
-/

theorem lookupField_append (a b : SON) (k : String) :
    lookupField (a ++ b) k = ((lookupField a k).orElse (fun _ => lookupField b k)) := by
  induction a with
  | nil => simp [lookupField]
  | cons kv rest ih =>
      by_cases h : (kv.1 == k) = true
      · simp [lookupField, h]
      · simp only [Bool.not_eq_true] at h
        simp [lookupField, h, ih]

theorem lookupField_eq_none (l : SON) (k : String) :
    lookupField l k = none ↔ ∀ kv ∈ l, (kv.1 == k) = false := by
  induction l with
  | nil => simp [lookupField]
  | cons kv rest ih =>
      constructor
      · intro h kv1 hmem
        rw [lookupField] at h
        by_cases hk : (kv.1 == k) = true
        · rw [if_pos hk] at h
          cases h
        · simp only [Bool.not_eq_true] at hk
          rw [hk] at h
          simp only [Bool.false_eq_true, if_false] at h
          rcases List.mem_cons.mp hmem with rfl | hmem
          · exact hk
          · exact (ih.mp h) kv1 hmem
      · intro h
        rw [lookupField, h kv (List.mem_cons_self _ _)]
        simp only [Bool.false_eq_true, if_false]
        exact ih.mpr (fun kv1 hm => h kv1 (List.mem_cons_of_mem _ hm))

theorem setField_of_not_mem (acc : SON) (k : String) (v : Value)
    (h : lookupField acc k = none) : setField acc k v = acc ++ [(k, v)] := by
  induction acc with
  | nil => rfl
  | cons kv rest ih =>
      rw [lookupField] at h
      by_cases hk : (kv.1 == k) = true
      · rw [if_pos hk] at h
        cases h
      · simp only [Bool.not_eq_true] at hk
        rw [hk] at h
        simp only [Bool.false_eq_true, if_false] at h
        simp [setField, hk, ih h]

theorem setField_lookup_self (s : SON) (k : String) (v : Value) :
    lookupField (setField s k v) k = some v := by
  induction s with
  | nil => simp [setField, lookupField]
  | cons kv rest ih =>
      by_cases hk : (kv.1 == k) = true
      · simp [setField, hk, lookupField]
      · simp only [Bool.not_eq_true] at hk
        simp [setField, hk, lookupField, ih]

theorem setField_lookup_other (s : SON) (k k1 : String) (v : Value)
    (h : (k1 == k) = false) :
    lookupField (setField s k1 v) k = lookupField s k := by
  induction s with
  | nil => simp [setField, lookupField, h]
  | cons kv rest ih =>
      by_cases hk : (kv.1 == k1) = true
      · have hne : (kv.1 == k) = false := by
          rcases eq_of_beq hk with rfl
          exact h
        simp [setField, hk, lookupField, h, hne]
      · simp only [Bool.not_eq_true] at hk
        simp [setField, hk, lookupField, ih]

theorem foldl_setField_append (l : SON) : ∀ acc : SON,
    (∀ kv ∈ l, lookupField acc kv.1 = none) → (l.map Prod.fst).Nodup →
    l.foldl (fun s kv => setField s kv.1 kv.2) acc = acc ++ l := by
  induction l with
  | nil => intro acc _ _; simp
  | cons kv rest ih =>
      intro acc hfresh hnd
      rw [List.foldl_cons,
        setField_of_not_mem acc kv.1 kv.2 (hfresh kv (List.mem_cons_self _ _))]
      rw [List.map_cons, List.nodup_cons] at hnd
      rw [ih (acc ++ [(kv.1, kv.2)]) ?_ hnd.2]
      · simp
      · intro kv1 hmem
        rw [lookupField_append]
        rw [hfresh kv1 (List.mem_cons_of_mem _ hmem)]
        have hne : (kv.1 == kv1.1) = false := by
          rw [beq_eq_false_iff_ne]
          intro he
          exact hnd.1 (he ▸ List.mem_map_of_mem Prod.fst hmem)
        simp [lookupField, hne]

theorem foldl_setField_lookup (l : SON) : ∀ (acc : SON) (k : String),
    (l.map Prod.fst).Nodup →
    lookupField (l.foldl (fun s kv => setField s kv.1 kv.2) acc) k
      = match lookupField l k with
        | some v => some v
        | none => lookupField acc k := by
  induction l with
  | nil => intro acc k _; simp [lookupField]
  | cons kv rest ih =>
      intro acc k hnd
      rw [List.map_cons, List.nodup_cons] at hnd
      rw [List.foldl_cons, ih (setField acc kv.1 kv.2) k hnd.2]
      by_cases hk : (kv.1 == k) = true
      · rcases eq_of_beq hk with rfl
        have hrest : lookupField rest kv.1 = none := by
          rw [lookupField_eq_none]
          intro kv1 hmem
          rw [beq_eq_false_iff_ne]
          intro he
          exact hnd.1 (he ▸ List.mem_map_of_mem Prod.fst hmem)
        simp [lookupField, hrest, setField_lookup_self]
      · simp only [Bool.not_eq_true] at hk
        simp only [lookupField, hk, Bool.false_eq_true, if_false]
        cases hr : lookupField rest k
        · simp [setField_lookup_other acc k kv.1 kv.2 hk]
        · simp

/-
  Well-formed business field names and clean document states.
-/

/-- A business field name as produced by normal attribute assignment: not
underscore-prefixed and not one of the two always-ignored property names. -/
def goodFieldName (n : String) : Bool :=
  !startsWithUnderscore n && !(["id", "modified"].contains n)

/-- Scalar stored values (the embeddable non-referencing field values of the
round-trip claim): null, booleans, strings, numbers and raw ObjectIds. -/
def isScalar : Value → Bool
  | .vNull => true
  | .vBool _ => true
  | .vStr _ => true
  | .vInt _ => true
  | .vOid _ => true
  | _ => false

theorem good_not_underscore (n : String) (h : goodFieldName n = true) :
    startsWithUnderscore n = false := by
  unfold goodFieldName at h
  exact Bool.eq_false_iff.mpr (fun hu => by rw [hu] at h; simp at h)

theorem good_ne_underscore (k s : String) (hk : goodFieldName k = true)
    (hs : startsWithUnderscore s = true) : (k == s) = false := by
  rw [beq_eq_false_iff_ne]
  intro he
  have h1 := good_not_underscore k hk
  rw [he, hs] at h1
  cases h1

theorem good_ignorePair (n : String) (v : Value) (h : goodFieldName n = true) :
    ignoreMemberPair ["id", "modified"] (n, v) = false := by
  unfold goodFieldName at h
  unfold ignoreMemberPair
  have h1 : startsWithUnderscore n = false := by
    cases hu : startsWithUnderscore n
    · rfl
    · rw [hu] at h
      simp at h
  have h2 : (["id", "modified"].contains n) = false := by
    cases hc : (["id", "modified"].contains n)
    · rfl
    · rw [hc] at h
      simp at h
  have hn1 : ¬ n = "id" := by
    intro he
    rw [he] at h2
    exact absurd h2 (by decide)
  have hn2 : ¬ n = "modified" := by
    intro he
    rw [he] at h2
    exact absurd h2 (by decide)
  simp [h1, hn1, hn2]

theorem good_ignoreStr (n : String) (h : goodFieldName n = true) :
    ignoreMemberStr ["id", "modified"] n = false := by
  have h1 := good_not_underscore n h
  unfold startsWithUnderscore at h1
  unfold ignoreMemberStr firstCharStr
  cases hd : n.data with
  | nil => rfl
  | cons c rest =>
      rw [hd] at h1
      have hc : ¬ c = '_' := by
        intro he
        rw [he] at h1
        simp at h1
      have p1 : ¬ (String.mk [c] = "_") := by
        intro he
        have hdata := congrArg String.data he
        simp at hdata
        exact hc hdata
      have p2 : ¬ (String.mk [c] = "id") := by
        intro he
        have hdata := congrArg String.data he
        simp at hdata
      have p3 : ¬ (String.mk [c] = "modified") := by
        intro he
        have hdata := congrArg String.data he
        simp at hdata
      simp [p1, p2, p3]

/-- A document in the state normal attribute use produces: the default
ignore list, no private attributes, cold field caches, and business fields
with well-formed, distinct names. -/
def cleanDoc (d : DocR) : Prop :=
  d.ignoredFields = ["id", "modified"]
  ∧ d.privateAttrs = []
  ∧ d.fieldsCache = none
  ∧ d.fieldnamesCache = none
  ∧ (d.fields.map Prod.fst).Nodup
  ∧ ∀ kv ∈ d.fields, goodFieldName kv.1 = true

theorem fieldsToStore_clean (d : DocR) (h : cleanDoc d) :
    fieldsToStore d = (d.fields, { d with fieldsCache := some d.fields }) := by
  obtain ⟨hig, hpa, hfc, hfn, hnd, hgood⟩ := h
  unfold fieldsToStore
  rw [hfc]
  unfold getmembers
  rw [hpa, hig]
  have hfilter : (d.fields.filter
      (fun m => !(ignoreMemberPair ["id", "modified"] m))) = d.fields := by
    rw [List.filter_eq_self]
    intro kv hmem
    rw [good_ignorePair kv.1 kv.2 (hgood kv hmem)]
    rfl
  have q1 : ignoreMemberPair ["id", "modified"] ("_id", d.id) = true := rfl
  have q2 : ignoreMemberPair ["id", "modified"]
      ("_modified", Value.vBool d.modified) = true := rfl
  have q3 : ignoreMemberPair ["id", "modified"] ("id", d.id) = true := rfl
  have q4 : ignoreMemberPair ["id", "modified"]
      ("modified", Value.vBool d.modified) = true := rfl
  simp only [List.append_nil, List.nil_append, List.filter_append,
    List.filter_cons, q1, q2, q3, q4, Bool.not_true, Bool.false_eq_true,
    if_false, List.filter_nil, List.nil_append]
  rw [hfilter]

theorem toSON_clean (d : DocR) (h : cleanDoc d) :
    toSON d = ((if !(pyEq d.id Value.vNull) then [("_id", d.id)] else [])
        ++ d.fields ++ [("_type", Value.vStr d.type_)],
      { d with fieldsCache := some d.fields }) := by
  obtain ⟨hig, hpa, hfc, hfn, hnd, hgood⟩ := h
  unfold toSON
  rw [fieldsToStore_clean d ⟨hig, hpa, hfc, hfn, hnd, hgood⟩]
  have hbase : ∀ kv ∈ d.fields,
      lookupField (if !(pyEq d.id Value.vNull) then [("_id", d.id)] else []) kv.1
        = none := by
    intro kv hmem
    have hne := good_ne_underscore kv.1 "_id" (hgood kv hmem) rfl
    have hne2 : ("_id" == kv.1) = false := by
      rw [beq_eq_false_iff_ne] at hne ⊢
      exact fun he => hne he.symm
    cases hid : !(pyEq d.id Value.vNull)
    · simp [lookupField]
    · simp [lookupField, hne2]
  rw [foldl_setField_append d.fields _ hbase hnd]
  have htype : lookupField
      ((if !(pyEq d.id Value.vNull) then [("_id", d.id)] else []) ++ d.fields)
      "_type" = none := by
    rw [lookupField_eq_none]
    intro kv hmem
    rcases List.mem_append.mp hmem with hm | hm
    · cases hid : !(pyEq d.id Value.vNull) <;> rw [hid] at hm
      · simp at hm
      · simp at hm
        rw [hm]
        rfl
    · exact good_ne_underscore kv.1 "_type" (hgood kv hm) rfl
  rw [setField_of_not_mem _ _ _ htype]

theorem pySetattr_fresh (st : DocR) (k : String) (v : Value)
    (hig : st.ignoredFields = ["id", "modified"])
    (hgood : goodFieldName k = true)
    (hnotin : lookupField st.fields k = none) :
    pySetattr st k v = { st with
      modified := true,
      fields := st.fields ++ [(k, v)],
      fieldsCache := none,
      fieldnamesCache := none } := by
  unfold pySetattr
  rw [hig, good_ignoreStr k hgood]
  unfold attributeModified
  rw [hnotin]
  unfold invalidateFieldsCache dictWrite
  have hk1 : (k == "_id") = false := good_ne_underscore k "_id" hgood rfl
  rw [hk1, good_not_underscore k hgood]
  simp only [Bool.not_false, if_true, Bool.false_eq_true, if_false]
  rw [setField_of_not_mem _ _ _ hnotin, hig]

theorem foldl_pySetattr_fresh (l : SON) : ∀ st : DocR,
    st.ignoredFields = ["id", "modified"] →
    (∀ kv ∈ l, goodFieldName kv.1 = true) →
    (∀ kv ∈ l, lookupField st.fields kv.1 = none) →
    (l.map Prod.fst).Nodup → l ≠ [] →
    l.foldl (fun d kv => pySetattr d kv.1 kv.2) st
      = { st with
          modified := true,
          fields := st.fields ++ l,
          fieldsCache := none,
          fieldnamesCache := none } := by
  induction l with
  | nil => intro st _ _ _ _ hne; exact absurd rfl hne
  | cons kv rest ih =>
      intro st hig hgood hnotin hnd _
      rw [List.foldl_cons, pySetattr_fresh st kv.1 kv.2 hig
        (hgood kv (List.mem_cons_self _ _)) (hnotin kv (List.mem_cons_self _ _))]
      rw [List.map_cons, List.nodup_cons] at hnd
      cases hrest : rest with
      | nil => simp
      | cons kv2 rest2 =>
          rw [← hrest]
          have hres := ih { st with
              modified := true,
              fields := st.fields ++ [(kv.1, kv.2)],
              fieldsCache := none,
              fieldnamesCache := none }
            hig
            (fun kv1 hm => hgood kv1 (List.mem_cons_of_mem _ hm))
            ?_ hnd.2 (by rw [hrest]; intro hc; cases hc)
          · rw [hres]
            simp
          · intro kv1 hm
            show lookupField (st.fields ++ [(kv.1, kv.2)]) kv1.1 = none
            rw [lookupField_append, hnotin kv1 (List.mem_cons_of_mem _ hm)]
            have hne : (kv.1 == kv1.1) = false := by
              rw [beq_eq_false_iff_ne]
              intro he
              exact hnd.1 (he ▸ List.mem_map_of_mem Prod.fst hm)
            simp [lookupField, hne]

theorem newDoc_clean (cls : DocClass)
    (hnd : (cls.initFields.map Prod.fst).Nodup)
    (hgood : ∀ kv ∈ cls.initFields, goodFieldName kv.1 = true) (iid : Nat) :
    newDoc cls iid
      = ⟨cls.name, cls.collName, Value.vNull, !cls.initFields.isEmpty,
         ["id", "modified"], cls.initFields, [], none, none, iid⟩ := by
  unfold newDoc
  cases hinit : cls.initFields with
  | nil => rfl
  | cons kv rest =>
      rw [← hinit]
      rw [foldl_pySetattr_fresh cls.initFields (baseInit cls iid) rfl hgood
        (fun kv1 _ => rfl) hnd (by rw [hinit]; intro hc; cases hc)]
      rw [hinit]
      rfl

/-- Populating fields through the fromSON copy loop only touches the
business fields when every key is a well-formed business name. -/
theorem foldl_dictWrite_business (l : SON) : ∀ acc : DocR,
    (∀ kv ∈ l, goodFieldName kv.1 = true) →
    l.foldl (fun a kv =>
        if kv.1 == "_type" || kv.1 == "_types_mapping" then a
        else dictWrite a kv.1 kv.2) acc
      = { acc with fields := l.foldl (fun s kv => setField s kv.1 kv.2) acc.fields } := by
  induction l with
  | nil => intro acc _; rfl
  | cons kv rest ih =>
      intro acc hgood
      have hg := hgood kv (List.mem_cons_self _ _)
      have h1 : (kv.1 == "_type") = false := good_ne_underscore _ _ hg rfl
      have h2 : (kv.1 == "_types_mapping") = false := good_ne_underscore _ _ hg rfl
      have h3 : (kv.1 == "_id") = false := good_ne_underscore _ _ hg rfl
      rw [List.foldl_cons, List.foldl_cons]
      rw [show (if kv.1 == "_type" || kv.1 == "_types_mapping" then acc
          else dictWrite acc kv.1 kv.2) = dictWrite acc kv.1 kv.2 by
        rw [h1, h2]; rfl]
      unfold dictWrite
      rw [h3, good_not_underscore kv.1 hg]
      simp only [Bool.false_eq_true, if_false]
      exact ih _ (fun kv1 hm => hgood kv1 (List.mem_cons_of_mem _ hm))

theorem pyEq_vNull_iff (x : Value) : pyEq x Value.vNull = true ↔ x = Value.vNull := by
  cases x <;> simp [pyEq]

theorem pyEq_vStr_self (s : String) : pyEq (Value.vStr s) (Value.vStr s) = true := by
  simp [pyEq]

/-- C2: for a document whose business fields are all embeddable scalars,
fromSON of toSON on a fresh instance of the same class yields an instance
that agrees with the original on every business field and on the id, with
the modified flag reset to false. -/
theorem c2_roundtrip (d : DocR) (cls : DocClass) (iid : Nat)
    (hty : cls.name = d.type_)
    (hclean : cleanDoc d)
    (hinitnd : (cls.initFields.map Prod.fst).Nodup)
    (hinitgood : ∀ kv ∈ cls.initFields, goodFieldName kv.1 = true)
    (hinit : ∀ kv ∈ cls.initFields, kv.1 ∈ d.fields.map Prod.fst)
    (_hscalar : ∀ kv ∈ d.fields, isScalar kv.2 = true) :
    ∃ d', fromSON (newDoc cls iid) (toSON d).1 = .ok d'
      ∧ (∀ k, lookupField d'.fields k = lookupField d.fields k)
      ∧ d'.id = d.id ∧ d'.modified = false := by
  obtain ⟨hig, hpa, hfc, hfn, hnd, hgood⟩ := hclean
  rw [toSON_clean d ⟨hig, hpa, hfc, hfn, hnd, hgood⟩,
    newDoc_clean cls hinitnd hinitgood iid]
  have hpreT : lookupField
      ((if !(pyEq d.id Value.vNull) then [("_id", d.id)] else []) ++ d.fields)
      "_type" = none := by
    rw [lookupField_eq_none]
    intro kv hmem
    rcases List.mem_append.mp hmem with hm | hm
    · cases hid : !(pyEq d.id Value.vNull) <;> rw [hid] at hm
      · simp at hm
      · simp at hm
        rw [hm]
        rfl
    · exact good_ne_underscore kv.1 "_type" (hgood kv hm) rfl
  have hlookT : lookupField
      ((if !(pyEq d.id Value.vNull) then [("_id", d.id)] else [])
        ++ d.fields ++ [("_type", Value.vStr d.type_)]) "_type"
      = some (Value.vStr d.type_) := by
    rw [lookupField_append, hpreT]
    rfl
  unfold fromSON
  rw [hlookT]
  have htyeq : pyEq (Value.vStr d.type_) (Value.vStr cls.name) = true := by
    rw [hty]
    exact pyEq_vStr_self d.type_
  simp only [htyeq, Bool.not_true, Bool.false_eq_true, if_false]
  have hfoldpre :
      (if !(pyEq d.id Value.vNull) then [("_id", d.id)] else []).foldl
        (fun acc kv => if kv.1 == "_type" || kv.1 == "_types_mapping" then acc
          else dictWrite acc kv.1 kv.2)
        (⟨cls.name, cls.collName, Value.vNull, !cls.initFields.isEmpty,
          ["id", "modified"], cls.initFields, [], none, none, iid⟩ : DocR)
      = ⟨cls.name, cls.collName, d.id, !cls.initFields.isEmpty,
         ["id", "modified"], cls.initFields, [], none, none, iid⟩ := by
    cases hid : !(pyEq d.id Value.vNull)
    · have hpp : pyEq d.id Value.vNull = true := by
        cases hp : pyEq d.id Value.vNull
        · rw [hp] at hid
          cases hid
        · rfl
      rw [(pyEq_vNull_iff d.id).mp hpp]
      rfl
    · rfl
  rw [List.foldl_append, List.foldl_append, hfoldpre,
    foldl_dictWrite_business d.fields _ hgood]
  refine ⟨_, rfl, ?_, rfl, rfl⟩
  intro k
  show lookupField
    (d.fields.foldl (fun s kv => setField s kv.1 kv.2) cls.initFields) k
    = lookupField d.fields k
  rw [foldl_setField_lookup d.fields cls.initFields k hnd]
  cases hdk : lookupField d.fields k
  · rw [lookupField_eq_none]
    intro kv hm
    rw [beq_eq_false_iff_ne]
    intro he
    rcases List.mem_map.mp (hinit kv hm) with ⟨kv2, hkv2, hkeq⟩
    have := (lookupField_eq_none d.fields k).mp hdk kv2 hkv2
    rw [beq_eq_false_iff_ne] at this
    exact this (by rw [hkeq, he])
  · rfl

/-- A concrete ConcreteDocument state with foo = a and bar = b. -/
def c2wDoc : DocR :=
  ⟨"ConcreteDocument", some "concrete_collection", Value.vNull, false,
   ["id", "modified"], [("foo", Value.vStr "a"), ("bar", Value.vStr "b")],
   [], none, none, 7⟩

/-- Witness for C2 at a concrete scalar-valued document. -/
theorem c2_roundtrip_witness :
    (cleanDoc c2wDoc ∧ (∀ kv ∈ c2wDoc.fields, isScalar kv.2 = true))
    ∧ (∃ d', fromSON (newDoc ConcreteDocumentCls 9) (toSON c2wDoc).1 = .ok d'
        ∧ (∀ k, lookupField d'.fields k = lookupField c2wDoc.fields k)
        ∧ d'.id = c2wDoc.id ∧ d'.modified = false) := by
  refine ⟨⟨⟨rfl, rfl, rfl, rfl, by decide, by decide⟩, by decide⟩, ?_⟩
  exact c2_roundtrip c2wDoc ConcreteDocumentCls 9 rfl
    ⟨rfl, rfl, rfl, rfl, by decide, by decide⟩
    (by decide) (by decide) (by decide) (by decide)

theorem foldl_setField_lookup_other (l : SON) : ∀ (acc : SON) (k : String),
    (∀ kv ∈ l, (kv.1 == k) = false) →
    lookupField (l.foldl (fun s kv => setField s kv.1 kv.2) acc) k
      = lookupField acc k := by
  induction l with
  | nil => intro acc k _; rfl
  | cons kv rest ih =>
      intro acc k h
      rw [List.foldl_cons,
        ih _ _ (fun kv1 hm => h kv1 (List.mem_cons_of_mem _ hm)),
        setField_lookup_other acc k kv.1 kv.2 (h kv (List.mem_cons_self _ _))]

/-- So long as the `_fields` cache (when warm) holds no `_id` entry, no
member to store is named `_id` (the computed list filters out every
underscore name). -/
theorem fieldsToStore_no_id (b : DocR)
    (hc : match b.fieldsCache with
          | none => True
          | some fs => ∀ kv ∈ fs, (kv.1 == "_id") = false) :
    ∀ kv ∈ (fieldsToStore b).1, (kv.1 == "_id") = false := by
  unfold fieldsToStore
  cases hfc : b.fieldsCache with
  | some fs =>
      rw [hfc] at hc
      exact hc
  | none =>
      intro kv hm
      simp only at hm
      have hmem := List.mem_filter.mp hm
      have hip : ignoreMemberPair b.ignoredFields kv = false := by
        cases hi : ignoreMemberPair b.ignoredFields kv
        · rfl
        · rw [hi] at hmem
          simp at hmem
      have hsw : startsWithUnderscore kv.1 = false := by
        unfold ignoreMemberPair at hip
        cases hs : startsWithUnderscore kv.1
        · rfl
        · rw [hs] at hip
          simp at hip
      rw [beq_eq_false_iff_ne]
      intro he
      rw [he] at hsw
      cases hsw

theorem toSON_lookup_id (b : DocR)
    (hc : match b.fieldsCache with
          | none => True
          | some fs => ∀ kv ∈ fs, (kv.1 == "_id") = false) :
    lookupField (toSON b).1 "_id"
      = if !(pyEq b.id Value.vNull) then some b.id else none := by
  unfold toSON
  rw [setField_lookup_other _ _ _ _ (by rfl),
    foldl_setField_lookup_other _ _ _ (fieldsToStore_no_id b hc)]
  cases hid : !(pyEq b.id Value.vNull)
  · rfl
  · rfl

/-- One step of the transform-incoming entry loop: whatever the entry value,
a normal outcome keeps the entry key in place (with some transformed value)
and continues the loop on the tail; a scalar value is kept untouched. -/
theorem tiEntries_cons_ok (fuel : Nat) (k0 : String) (v0 : Value)
    (rest : List (String × Value)) (coll : Option String)
    (tm : List (String × String)) (db : DB) (l' : List (String × Value))
    (tm' : List (String × String)) (db' : DB)
    (hok : tiEntries (fuel + 1) ((k0, v0) :: rest) coll tm db
      = .ok (l', tm', db')) :
    ∃ v0' rest1 tm0 db0, l' = (k0, v0') :: rest1
      ∧ tiEntries fuel rest coll tm0 db0 = .ok (rest1, tm', db')
      ∧ (isScalar v0 = true → v0' = v0) := by
  cases v0 with
  | vMap m =>
      simp only [tiEntries] at hok
      split at hok
      next e heq => cases hok
      next m1 db1 heq =>
        split at hok
        next e heq2 => cases hok
        next rest1 tm1 db2 heq2 =>
          simp only [Except.ok.injEq, Prod.mk.injEq] at hok
          obtain ⟨h1, h2, h3⟩ := hok
          exact ⟨Value.vMap m1, rest1, tm, db1, h1.symm,
            by rw [heq2, h2, h3], fun hs => by cases hs⟩
  | vObj t cn i m ig f pa fc fn iid =>
      cases coll with
      | none =>
          simp only [tiEntries, Value.asDoc] at hok
          split at hok
          next e heq => cases hok
          next rest1 tm1 db2 heq =>
            simp only [Except.ok.injEq, Prod.mk.injEq] at hok
            obtain ⟨h1, h2, h3⟩ := hok
            exact ⟨_, rest1, tm, db, h1.symm, by rw [heq, h2, h3],
              fun hs => by cases hs⟩
      | some c =>
          cases cn with
          | none =>
              simp only [tiEntries, Value.asDoc] at hok
              split at hok
              next e heq => cases hok
              next rest1 tm1 db2 heq =>
                simp only [Except.ok.injEq, Prod.mk.injEq] at hok
                obtain ⟨h1, h2, h3⟩ := hok
                exact ⟨_, rest1, tm, db, h1.symm, by rw [heq, h2, h3],
                  fun hs => by cases hs⟩
          | some bcn =>
              simp only [tiEntries, Value.asDoc] at hok
              split at hok
              next e heq => cases hok
              next b1 db1 heq =>
                split at hok
                next e heq2 => cases hok
                next rest1 tm1 db2 heq2 =>
                  simp only [Except.ok.injEq, Prod.mk.injEq] at hok
                  obtain ⟨h1, h2, h3⟩ := hok
                  exact ⟨_, rest1, _, db1, h1.symm, by rw [heq2, h2, h3],
                    fun hsc => by cases hsc⟩
  | vNull =>
      simp only [tiEntries, Value.asDoc] at hok
      split at hok
      next e heq => cases hok
      next rest1 tm1 db2 heq =>
        simp only [Except.ok.injEq, Prod.mk.injEq] at hok
        obtain ⟨h1, h2, h3⟩ := hok
        exact ⟨_, rest1, tm, db, h1.symm, by rw [heq, h2, h3], fun _ => rfl⟩
  | vBool b0 =>
      simp only [tiEntries, Value.asDoc] at hok
      split at hok
      next e heq => cases hok
      next rest1 tm1 db2 heq =>
        simp only [Except.ok.injEq, Prod.mk.injEq] at hok
        obtain ⟨h1, h2, h3⟩ := hok
        exact ⟨_, rest1, tm, db, h1.symm, by rw [heq, h2, h3], fun _ => rfl⟩
  | vStr s0 =>
      simp only [tiEntries, Value.asDoc] at hok
      split at hok
      next e heq => cases hok
      next rest1 tm1 db2 heq =>
        simp only [Except.ok.injEq, Prod.mk.injEq] at hok
        obtain ⟨h1, h2, h3⟩ := hok
        exact ⟨_, rest1, tm, db, h1.symm, by rw [heq, h2, h3], fun _ => rfl⟩
  | vInt n0 =>
      simp only [tiEntries, Value.asDoc] at hok
      split at hok
      next e heq => cases hok
      next rest1 tm1 db2 heq =>
        simp only [Except.ok.injEq, Prod.mk.injEq] at hok
        obtain ⟨h1, h2, h3⟩ := hok
        exact ⟨_, rest1, tm, db, h1.symm, by rw [heq, h2, h3], fun _ => rfl⟩
  | vOid n0 =>
      simp only [tiEntries, Value.asDoc] at hok
      split at hok
      next e heq => cases hok
      next rest1 tm1 db2 heq =>
        simp only [Except.ok.injEq, Prod.mk.injEq] at hok
        obtain ⟨h1, h2, h3⟩ := hok
        exact ⟨_, rest1, tm, db, h1.symm, by rw [heq, h2, h3], fun _ => rfl⟩
  | vPlaceholder c0 o0 =>
      simp only [tiEntries, Value.asDoc] at hok
      split at hok
      next e heq => cases hok
      next rest1 tm1 db2 heq =>
        simp only [Except.ok.injEq, Prod.mk.injEq] at hok
        obtain ⟨h1, h2, h3⟩ := hok
        exact ⟨_, rest1, tm, db, h1.symm, by rw [heq, h2, h3], fun hsc => by cases hsc⟩



theorem tiEntries_nil_ok (fuel : Nat) (coll : Option String)
    (tm : List (String × String)) (db : DB) (l' : List (String × Value))
    (tm' : List (String × String)) (db' : DB)
    (hok : tiEntries fuel [] coll tm db = .ok (l', tm', db')) :
    l' = [] ∧ tm' = tm ∧ db' = db := by
  cases fuel with
  | zero => cases hok
  | succ f =>
      simp only [tiEntries, Except.ok.injEq, Prod.mk.injEq] at hok
      exact ⟨hok.1.symm, hok.2.1.symm, hok.2.2.symm⟩

/-- The transform-incoming entry loop preserves the keys of the dict, in
order. -/
theorem tiEntries_keys : ∀ (l : List (String × Value)) (fuel : Nat)
    (coll : Option String) (tm : List (String × String)) (db : DB)
    (l' : List (String × Value)) (tm' : List (String × String)) (db' : DB),
    tiEntries fuel l coll tm db = .ok (l', tm', db') →
    l'.map Prod.fst = l.map Prod.fst := by
  intro l
  induction l with
  | nil =>
      intro fuel coll tm db l' tm' db' hok
      rw [(tiEntries_nil_ok fuel coll tm db l' tm' db' hok).1]
  | cons kv rest ih =>
      intro fuel coll tm db l' tm' db' hok
      cases fuel with
      | zero => cases hok
      | succ f =>
          obtain ⟨v0', rest1, tm0, db0, hl, hr, _⟩ :=
            tiEntries_cons_ok f kv.1 kv.2 rest coll tm db l' tm' db' hok
          rw [hl, List.map_cons, List.map_cons,
            ih f coll tm0 db0 rest1 tm' db' hr]

theorem lookupField_none_of_keys (l l' : SON)
    (hkeys : l'.map Prod.fst = l.map Prod.fst) (k : String)
    (h : lookupField l k = none) : lookupField l' k = none := by
  rw [lookupField_eq_none] at h ⊢
  intro kv hm
  have hmem : kv.1 ∈ l'.map Prod.fst := List.mem_map_of_mem Prod.fst hm
  rw [hkeys] at hmem
  rcases List.mem_map.mp hmem with ⟨kv2, hkv2, he⟩
  rw [← he]
  exact h kv2 hkv2

/-- The transform-incoming entry loop leaves entries with scalar values in
place. -/
theorem tiEntries_lookup_scalar : ∀ (l : List (String × Value)) (fuel : Nat)
    (coll : Option String) (tm : List (String × String)) (db : DB)
    (l' : List (String × Value)) (tm' : List (String × String)) (db' : DB),
    tiEntries fuel l coll tm db = .ok (l', tm', db') →
    ∀ (k : String) (v : Value), lookupField l k = some v → isScalar v = true →
    lookupField l' k = some v := by
  intro l
  induction l with
  | nil =>
      intro fuel coll tm db l' tm' db' hok k v hlk
      cases hlk
  | cons kv rest ih =>
      intro fuel coll tm db l' tm' db' hok k v hlk hsc
      cases fuel with
      | zero => cases hok
      | succ f =>
          obtain ⟨v0', rest1, tm0, db0, hl, hr, hscal⟩ :=
            tiEntries_cons_ok f kv.1 kv.2 rest coll tm db l' tm' db' hok
          rw [lookupField] at hlk
          rw [hl, lookupField]
          by_cases hk : (kv.1 == k) = true
          · rw [if_pos hk] at hlk ⊢
            cases hlk
            rw [hscal hsc]
          · simp only [Bool.not_eq_true] at hk
            rw [hk] at hlk ⊢
            simp only [Bool.false_eq_true, if_false] at hlk ⊢
            exact ih f coll tm0 db0 rest1 tm' db' hr k v hlk hsc

theorem transformIncoming_destruct (fuel : Nat) (son : SON)
    (coll : Option String) (db : DB) (son' : SON) (db' : DB)
    (hok : transformIncoming (fuel + 1) son coll db = .ok (son', db')) :
    ∃ entries tm db1, tiEntries fuel son coll [] db = .ok (entries, tm, db1)
      ∧ db' = db1
      ∧ son' = (if tm.isEmpty then entries
          else setField entries "_types_mapping"
            (Value.vMap (tm.map (fun p => (p.1, Value.vStr p.2))))) := by
  simp only [transformIncoming] at hok
  split at hok
  next e heq => cases hok
  next entries tm db1 heq =>
    refine ⟨entries, tm, db1, heq, ?_⟩
    split at hok <;> rename_i hemp
    · simp only [Except.ok.injEq, Prod.mk.injEq] at hok
      rw [if_pos hemp]
      exact ⟨hok.2.symm, hok.1.symm⟩
    · simp only [Except.ok.injEq, Prod.mk.injEq] at hok
      rw [if_neg hemp]
      exact ⟨hok.2.symm, hok.1.symm⟩

/-- Through a normal transform-incoming run, a key which was absent stays
absent (only `_types_mapping` can be added), and a scalar-valued entry other
than `_types_mapping` keeps its value. -/
theorem transformIncoming_lookup (fuel : Nat) (son : SON)
    (coll : Option String) (db : DB) (son' : SON) (db' : DB)
    (hok : transformIncoming fuel son coll db = .ok (son', db'))
    (k : String) (hk : ("_types_mapping" == k) = false) :
    (lookupField son k = none → lookupField son' k = none)
    ∧ (∀ v, lookupField son k = some v → isScalar v = true →
        lookupField son' k = some v) := by
  cases fuel with
  | zero => cases hok
  | succ f =>
      obtain ⟨entries, tm, db1, hti, hdb, hson⟩ :=
        transformIncoming_destruct f son coll db son' db' hok
      have hkeys := tiEntries_keys son f coll [] db entries tm db1 hti
      have hlk : lookupField son' k = lookupField entries k := by
        rw [hson]
        cases tm.isEmpty
        · simp only [Bool.false_eq_true, if_false]
          exact setField_lookup_other entries k "_types_mapping" _ hk
        · simp only [if_true]
      constructor
      · intro hnone
        rw [hlk]
        exact lookupField_none_of_keys son entries hkeys k hnone
      · intro v hsome hsc
        rw [hlk]
        exact tiEntries_lookup_scalar son f coll [] db entries tm db1 hti k v
          hsome hsc

/-- The id returned by the pymongo save is never None: the insert path
generates a fresh ObjectId (the manipulators cannot smuggle an `_id` in),
and the update path returns the already present `_id`, which survives the
manipulation untouched when it is a scalar. -/
theorem pymongoSave_id_nonNull (fuel : Nat) (cn : String) (son : SON)
    (db : DB) (r : Value) (db2 : DB)
    (hok : pymongoSave fuel cn son db = .ok (r, db2))
    (hsome : ∀ v, lookupField son "_id" = some v →
      isScalar v = true ∧ v ≠ Value.vNull) :
    r ≠ Value.vNull := by
  cases fuel with
  | zero => cases hok
  | succ f =>
      simp only [pymongoSave] at hok
      split at hok
      next hid =>
        cases f with
        | zero => cases hok
        | succ f2 =>
            simp only [pymongoInsert] at hok
            split at hok
            next e heq => cases hok
            next son1 db1 heq =>
              cases f2 with
              | zero =>
                  simp only [fixIncoming] at heq
                  cases heq
              | succ f3 =>
                  simp only [fixIncoming] at heq
                  have hnone :=
                    (transformIncoming_lookup f3 son (some cn) db son1 db1
                      heq "_id" rfl).1 hid
                  split at hok
                  next i heq2 =>
                      rw [hnone] at heq2
                      cases heq2
                  next heq2 =>
                      simp only [Except.ok.injEq, Prod.mk.injEq] at hok
                      rw [← hok.1]
                      intro hc
                      cases hc
      next v0 hid =>
        obtain ⟨hsc, hnn⟩ := hsome v0 hid
        cases f with
        | zero =>
            simp only [fixIncoming] at hok
            cases hok
        | succ f3 =>
            split at hok
            next e heq => cases hok
            next son1 db1 heq =>
              simp only [fixIncoming] at heq
              have hsome1 :=
                (transformIncoming_lookup f3 son (some cn) db son1 db1 heq
                  "_id" rfl).2 v0 hid hsc
              simp only [Except.ok.injEq, Prod.mk.injEq] at hok
              rw [← hok.1, hsome1]
              exact hnn

/-- After a normal save of a modified or already persisted document whose id
slot is scalar (and whose warm field cache, if any, holds no `_id` entry),
the document id is not None. -/
theorem docSave_id_nonNull (fuel : Nat) (b : DocR) (db : DB) (b1 : DocR)
    (db1 : DB) (hok : docSave fuel b db = .ok (b1, db1))
    (hsc : isScalar b.id = true)
    (hcache : match b.fieldsCache with
      | none => True
      | some fs => ∀ kv ∈ fs, (kv.1 == "_id") = false)
    (hm : b.modified = true ∨ b.id ≠ Value.vNull) :
    b1.id ≠ Value.vNull := by
  have hsomeid : ∀ v, lookupField (toSON b).1 "_id" = some v →
      isScalar v = true ∧ v ≠ Value.vNull := by
    intro v hv
    rw [toSON_lookup_id b hcache] at hv
    cases hcase : !(pyEq b.id Value.vNull) <;> rw [hcase] at hv
    · cases hv
    · have hbne : b.id ≠ Value.vNull := by
        intro he
        rw [he] at hcase
        cases hcase
      cases hv
      exact ⟨hsc, hbne⟩
  cases fuel with
  | zero => cases hok
  | succ f =>
      simp only [docSave] at hok
      by_cases hmod : b.modified = true
      · rw [hmod] at hok
        simp only [Bool.not_true, Bool.false_eq_true, if_false] at hok
        cases hcn : b.collName with
        | none => rw [hcn] at hok; cases hok
        | some cn =>
            rw [hcn] at hok
            simp only at hok
            split at hok
            next e heq => cases hok
            next result d1 db1x heq =>
              simp only [Except.ok.injEq, Prod.mk.injEq] at hok
              rw [← hok.1]
              show result ≠ Value.vNull
              cases f with
              | zero => cases heq
              | succ f2 =>
                  simp only [adapterSave] at heq
                  split at heq
                  next e heq2 => cases heq
                  next r db3 heq2 =>
                    have hr : r ≠ Value.vNull :=
                      pymongoSave_id_nonNull f2 _ (toSON b).1 _ r db3 heq2
                        hsomeid
                    cases htr : isTruthy r <;> rw [htr] at heq
                    · simp only [Bool.false_eq_true, if_false,
                        Except.ok.injEq, Prod.mk.injEq] at heq
                      rw [← heq.1]
                      exact hr
                    · simp only [if_true] at heq
                      split at heq
                      next e heq3 => cases heq
                      next db4 heq3 =>
                        simp only [Except.ok.injEq, Prod.mk.injEq] at heq
                        rw [← heq.1]
                        exact hr
      · have hmf : b.modified = false := by
          cases hb : b.modified
          · rfl
          · exact absurd hb hmod
        rw [hmf] at hok
        simp only [Bool.not_false, if_true, Except.ok.injEq,
          Prod.mk.injEq] at hok
        rcases hm with hm | hm
        · exact absurd hm hmod
        · rw [← hok.1]
          exact hm

/-- The transform-incoming step for a document entry with a collection, when
a target collection is given: the document is saved and the entry value is
replaced by its id after the save. -/
theorem tiEntries_cons_obj_save (fuel : Nat) (k0 : String) (b : DocR)
    (bcn : String) (hbcn : b.collName = some bcn)
    (rest : List (String × Value)) (c : String)
    (tm : List (String × String)) (db : DB) (l' : List (String × Value))
    (tm' : List (String × String)) (db' : DB)
    (hok : tiEntries (fuel + 1) ((k0, b.val) :: rest) (some c) tm db
      = .ok (l', tm', db')) :
    ∃ b1 db1 rest1, docSave fuel b (dbGetCollection db bcn).2 = .ok (b1, db1)
      ∧ l' = (k0, b1.id) :: rest1 := by
  obtain ⟨t, cn, i, m, ig, f0, pa, fc, fn, iid⟩ := b
  simp only at hbcn
  cases hbcn
  simp only [tiEntries, DocR.val, Value.asDoc] at hok
  split at hok
  next e heq => cases hok
  next b1 db1 heq =>
    split at hok
    next e heq2 => cases hok
    next rest1 tm1 db2 heq2 =>
      simp only [Except.ok.injEq, Prod.mk.injEq] at hok
      exact ⟨b1, db1, rest1, heq, hok.1.symm⟩

/-- Through a normal run of the transform-incoming entry loop, every
document entry with its own collection, when it is modified or already
persisted (and well formed as in docSave_id_nonNull), ends up bound to a
non-None value. -/
theorem tiEntries_ref_nonNull (c k : String) (b : DocR)
    (hcoll : b.collName.isSome = true)
    (hsc : isScalar b.id = true)
    (hcache : match b.fieldsCache with
      | none => True
      | some fs => ∀ kv ∈ fs, (kv.1 == "_id") = false)
    (hsave : b.modified = true ∨ b.id ≠ Value.vNull) :
    ∀ l : List (String × Value), (k, b.val) ∈ l → (l.map Prod.fst).Nodup →
    ∀ (fuel : Nat) (tm : List (String × String)) (db : DB)
      (l' : List (String × Value)) (tm' : List (String × String)) (db' : DB),
    tiEntries fuel l (some c) tm db = .ok (l', tm', db') →
    ∃ v, lookupField l' k = some v ∧ v ≠ Value.vNull := by
  intro l
  induction l with
  | nil =>
      intro hmem
      cases hmem
  | cons kv rest ih =>
      intro hmem hnd fuel tm db l' tm' db' hok
      cases fuel with
      | zero => cases hok
      | succ f =>
          rw [List.map_cons, List.nodup_cons] at hnd
          rcases List.mem_cons.mp hmem with heq | hmem2
          · obtain ⟨bcn, hbcn⟩ := Option.isSome_iff_exists.mp hcoll
            rw [← heq] at hok
            obtain ⟨b1, db1, rest1, hsaveok, hl⟩ :=
              tiEntries_cons_obj_save f k b bcn hbcn rest c tm db l' tm' db'
                hok
            refine ⟨b1.id, ?_,
              docSave_id_nonNull f b _ b1 db1 hsaveok hsc hcache hsave⟩
            rw [hl, lookupField]
            simp
          · obtain ⟨v0', rest1, tm0, db0, hl, hr, _⟩ :=
              tiEntries_cons_ok f kv.1 kv.2 rest (some c) tm db l' tm' db' hok
            have hkne : (kv.1 == k) = false := by
              rw [beq_eq_false_iff_ne]
              intro he
              apply hnd.1
              rw [he]
              exact List.mem_map_of_mem Prod.fst hmem2
            obtain ⟨v, hv, hnn⟩ := ih hmem2 hnd.2 f tm0 db0 rest1 tm' db' hr
            refine ⟨v, ?_, hnn⟩
            rw [hl, lookupField, hkne]
            simpa using hv

/-- C7 amended: in a normal transform-incoming run with a target collection,
every nested document entry whose type has its own collection has save
invoked on it before the mapping is returned, and the identifier embedded in
its place is non-None provided that the document was modified or already
persisted (an unmodified, never persisted document is embedded as the None
identifier, since its save is a no-op). Well-formedness of the document
state is as in docSave_id_nonNull. -/
theorem c7_referenced_doc_id (fuel : Nat) (son son' : SON) (c : String)
    (db db' : DB)
    (hok : transformIncoming fuel son (some c) db = .ok (son', db'))
    (k : String) (b : DocR)
    (hmem : (k, b.val) ∈ son)
    (hnd : (son.map Prod.fst).Nodup)
    (hk : ("_types_mapping" == k) = false)
    (hcoll : b.collName.isSome = true)
    (hsc : isScalar b.id = true)
    (hcache : match b.fieldsCache with
      | none => True
      | some fs => ∀ kv ∈ fs, (kv.1 == "_id") = false)
    (hsave : b.modified = true ∨ b.id ≠ Value.vNull) :
    ∃ v, lookupField son' k = some v ∧ v ≠ Value.vNull := by
  cases fuel with
  | zero => cases hok
  | succ f =>
      obtain ⟨entries, tm, db1, hti, hdb, hson⟩ :=
        transformIncoming_destruct f son (some c) db son' db' hok
      obtain ⟨v, hv, hnn⟩ := tiEntries_ref_nonNull c k b hcoll hsc hcache
        hsave son hmem hnd f [] db entries tm db1 hti
      refine ⟨v, ?_, hnn⟩
      rw [hson]
      cases tm.isEmpty
      · simp only [Bool.false_eq_true, if_false]
        rw [setField_lookup_other entries k "_types_mapping" _ hk]
        exact hv
      · simp only [if_true]
        exact hv

/-- C7 counterexample: the claim says every referenced nested document has a
non-null id by the time its identifier is embedded and recorded. But save is
a no-op on an unmodified document, so an unmodified, never persisted nested
document (fresh instance of a class with a collection and no constructor
assignment) is embedded as None, and the types mapping records it under the
stringified key None. -/
theorem c7_counterexample_null_reference :
    (newDoc ReferencedCls 3).modified = false
    ∧ (newDoc ReferencedCls 3).id = Value.vNull
    ∧ (transformIncoming 6 [("child", (newDoc ReferencedCls 3).val)]
        (some "parent") sampleDB).map
        (fun r => (lookupField r.1 "child", lookupField r.1 "_types_mapping"))
      = .ok (some Value.vNull,
          some (Value.vMap [("None", Value.vStr "Referenced")])) :=
  ⟨rfl, rfl, rfl⟩

/-- A modified referenced document class instance, for the C7 witness. -/
def c7wB : DocR := newDoc ⟨"Referenced", some "refs", [("x", Value.vStr "v")]⟩ 3

/-- The transformed parent payload of the C7 witness run. -/
def c7wSon : SON :=
  [("child", Value.vOid 0),
   ("_types_mapping", Value.vMap [("0", Value.vStr "Referenced")])]

/-- The driver state after the C7 witness run: the referenced document was
stored in refs with the fresh ObjectId 0 and cached. -/
def c7wDb : DB :=
  ⟨[("refs", [[("x", Value.vStr "v"), ("_type", Value.vStr "Referenced"),
      ("_id", Value.vOid 0)]])],
   [("refs", ⟨true, [(0,
      ⟨"Referenced", some "refs", Value.vOid 0, true, ["id", "modified"],
       [("x", Value.vStr "v")], [], some [("x", Value.vStr "v")], none, 3⟩)]⟩)],
   true, true, [ConcreteDocumentCls, EmptyNestedCls, ReferencedCls], 1, 100⟩

/-- Witness for the amended C7: a modified nested document with its own
collection is embedded as a non-None identifier. -/
theorem c7_referenced_doc_id_witness :
    transformIncoming 20 [("child", c7wB.val)] (some "parent") sampleDB
      = .ok (c7wSon, c7wDb)
    ∧ ∃ v, lookupField c7wSon "child" = some v ∧ v ≠ Value.vNull := by
  constructor
  · rfl
  · exact c7_referenced_doc_id 20 [("child", c7wB.val)] c7wSon "parent"
      sampleDB c7wDb rfl "child" c7wB (List.mem_singleton.mpr rfl)
      (by simp) (by decide) rfl rfl (by trivial) (Or.inl rfl)

theorem toEntries_nil_ok (fuel : Nat) (cur : SON) (db : DB) (out : SON)
    (db' : DB) (hok : toEntries fuel [] cur db = .ok (out, db')) :
    out = cur ∧ db' = db := by
  cases fuel with
  | zero => cases hok
  | succ f =>
      simp only [toEntries, Except.ok.injEq, Prod.mk.injEq] at hok
      exact ⟨hok.1.symm, hok.2.symm⟩

/-- One step of the transform-outgoing entry loop: a normal outcome either
leaves the current dict untouched or assigns the processed entry key, then
continues on the tail. -/
theorem toEntries_cons_ok (fuel : Nat) (k0 : String) (v0 : Value)
    (rest : List (String × Value)) (cur : SON) (db : DB) (out : SON)
    (db' : DB)
    (hok : toEntries (fuel + 1) ((k0, v0) :: rest) cur db = .ok (out, db')) :
    ∃ cur1 db1, toEntries fuel rest cur1 db1 = .ok (out, db')
      ∧ (cur1 = cur ∨ ∃ v1, cur1 = setField cur k0 v1) := by
  cases v0 with
  | vOid n =>
      simp only [toEntries] at hok
      split at hok
      next heq => exact ⟨cur, db, hok, Or.inl rfl⟩
      next e2 heq hne => cases hok
      next v1 db1 heq => exact ⟨setField cur k0 v1, db1, hok, Or.inr ⟨v1, rfl⟩⟩
  | vMap m =>
      simp only [toEntries] at hok
      split at hok
      · split at hok
        next doctype heq =>
          split at hok
          next e2 heq2 => cases hok
          next document db1 heq2 =>
            split at hok
            next e2 heq3 => cases hok
            next doc1 heq3 =>
              exact ⟨setField cur k0 doc1.val, db1, hok, Or.inr ⟨doc1.val, rfl⟩⟩
        next heq => exact ⟨cur, db, hok, Or.inl rfl⟩
      · split at hok
        next e2 heq => cases hok
        next m1 db1 heq =>
          exact ⟨setField cur k0 (Value.vMap m1), db1, hok,
            Or.inr ⟨Value.vMap m1, rfl⟩⟩
  | vNull =>
      simp only [toEntries] at hok
      exact ⟨cur, db, hok, Or.inl rfl⟩
  | vBool b0 =>
      simp only [toEntries] at hok
      exact ⟨cur, db, hok, Or.inl rfl⟩
  | vStr s0 =>
      simp only [toEntries] at hok
      exact ⟨cur, db, hok, Or.inl rfl⟩
  | vInt n0 =>
      simp only [toEntries] at hok
      exact ⟨cur, db, hok, Or.inl rfl⟩
  | vPlaceholder c0 o0 =>
      simp only [toEntries] at hok
      exact ⟨cur, db, hok, Or.inl rfl⟩
  | vObj t cn i m ig f0 pa fc fn iid =>
      simp only [toEntries] at hok
      exact ⟨cur, db, hok, Or.inl rfl⟩

/-- The transform-outgoing entry loop does not touch keys outside its
snapshot. -/
theorem toEntries_lookup_untouched : ∀ (l : List (String × Value))
    (fuel : Nat) (cur : SON) (db : DB) (out : SON) (db' : DB),
    toEntries fuel l cur db = .ok (out, db') →
    ∀ k : String, (∀ e ∈ l, (e.1 == k) = false) →
    lookupField out k = lookupField cur k := by
  intro l
  induction l with
  | nil =>
      intro fuel cur db out db' hok k _
      rw [(toEntries_nil_ok fuel cur db out db' hok).1]
  | cons e rest ih =>
      intro fuel cur db out db' hok k hall
      cases fuel with
      | zero => cases hok
      | succ f =>
          obtain ⟨k0, v0⟩ := e
          obtain ⟨cur1, db1, hrest, hd⟩ :=
            toEntries_cons_ok f k0 v0 rest cur db out db' hok
          rw [ih f cur1 db1 out db' hrest k
            (fun e2 he2 => hall e2 (List.mem_cons_of_mem _ he2))]
          rcases hd with rfl | ⟨v1, rfl⟩
          · rfl
          · exact setField_lookup_other cur k k0 v1
              (hall (k0, v0) (List.mem_cons_self _ _))

/-- A dict whose values are all strings passes through the transform-outgoing
entry loop unchanged. -/
theorem toEntries_allVStr : ∀ (l : List (String × Value)) (fuel : Nat)
    (cur : SON) (db : DB) (out : SON) (db' : DB),
    (∀ e ∈ l, ∃ s, e.2 = Value.vStr s) →
    toEntries fuel l cur db = .ok (out, db') → out = cur ∧ db' = db := by
  intro l
  induction l with
  | nil =>
      intro fuel cur db out db' _ hok
      exact toEntries_nil_ok fuel cur db out db' hok
  | cons e rest ih =>
      intro fuel cur db out db' hall hok
      cases fuel with
      | zero => cases hok
      | succ f =>
          obtain ⟨k0, v0⟩ := e
          obtain ⟨s, hs⟩ := hall (k0, v0) (List.mem_cons_self _ _)
          simp only at hs
          rw [hs] at hok
          simp only [toEntries] at hok
          exact ih f cur db out db'
            (fun e2 he2 => hall e2 (List.mem_cons_of_mem _ he2)) hok

theorem transformOutgoing_allVStr (fuel : Nat) (m : List (String × Value))
    (db : DB) (m1 : List (String × Value)) (db1 : DB)
    (hall : ∀ e ∈ m, ∃ s, e.2 = Value.vStr s)
    (hok : transformOutgoing fuel m db = .ok (m1, db1)) :
    m1 = m ∧ db1 = db := by
  cases fuel with
  | zero => cases hok
  | succ f =>
      simp only [transformOutgoing] at hok
      exact toEntries_allVStr m f m db m1 db1 hall hok

/-- The tag of the given ObjectId is absent from the (well-formed) types
mapping of the dict, or the dict carries no types mapping at all. -/
def tmAbsentAt (cur : SON) (n : Nat) : Prop :=
  match lookupField cur "_types_mapping" with
  | none => True
  | some (Value.vMap tmm) =>
      (∀ e ∈ tmm, ∃ s, e.2 = Value.vStr s)
      ∧ containsKey tmm "_type" = false
      ∧ lookupField tmm (pyStr (Value.vOid n)) = none
  | some _ => False

/-- When the tag is absent, the reference resolution raises KeyError (the
caught case). -/
theorem resolveReference_keyError (fuel : Nat) (cur : SON) (n : Nat) (db : DB)
    (h : tmAbsentAt cur n) :
    resolveReference (fuel + 1) cur n db = .error .keyError := by
  unfold tmAbsentAt at h
  simp only [resolveReference]
  cases hl : lookupField cur "_types_mapping" with
  | none => rfl
  | some v =>
      rw [hl] at h
      cases v with
      | vMap tmm =>
          have h2 : (∀ e ∈ tmm, ∃ s, e.2 = Value.vStr s)
              ∧ containsKey tmm "_type" = false
              ∧ lookupField tmm (pyStr (Value.vOid n)) = none := h
          simp only [h2.2.2]
      | vNull => exact False.elim h
      | vBool b0 => exact False.elim h
      | vStr s0 => exact False.elim h
      | vInt n0 => exact False.elim h
      | vOid n0 => exact False.elim h
      | vPlaceholder c0 o0 => exact False.elim h
      | vObj t cn i m ig f0 pa fc fn iid => exact False.elim h

theorem lookupField_of_mem_nodup (l : SON) (k : String) (v : Value)
    (hmem : (k, v) ∈ l) (hnd : (l.map Prod.fst).Nodup) :
    lookupField l k = some v := by
  induction l with
  | nil => cases hmem
  | cons e rest ih =>
      rw [List.map_cons, List.nodup_cons] at hnd
      rcases List.mem_cons.mp hmem with heq | hmem2
      · subst heq
        simp [lookupField]
      · have hne : (e.1 == k) = false := by
          rw [beq_eq_false_iff_ne]
          intro he
          apply hnd.1
          rw [he]
          exact List.mem_map_of_mem Prod.fst hmem2
        rw [lookupField, hne]
        simp only [Bool.false_eq_true, if_false]
        exact ih hmem2 hnd.2

/-- Through a normal run of the transform-outgoing entry loop, an ObjectId
entry whose tag is absent from the (well-formed) types mapping of the
current dict is left bound to the raw identifier. -/
theorem toEntries_tag_absent (k : String) (n : Nat) :
    ∀ (l : List (String × Value)) (fuel : Nat) (cur : SON) (db : DB)
      (out : SON) (db' : DB),
    toEntries fuel l cur db = .ok (out, db') →
    (k, Value.vOid n) ∈ l →
    (l.map Prod.fst).Nodup →
    lookupField cur k = some (Value.vOid n) →
    tmAbsentAt cur n →
    (∀ v, ("_types_mapping", v) ∈ l →
      lookupField cur "_types_mapping" = some v) →
    lookupField out k = some (Value.vOid n) := by
  intro l
  induction l with
  | nil =>
      intro fuel cur db out db' _ hmem
      cases hmem
  | cons e rest ih =>
      intro fuel cur db out db' hok hmem hnd hcurk htm hI2
      cases fuel with
      | zero => cases hok
      | succ f =>
          rw [List.map_cons, List.nodup_cons] at hnd
          rcases List.mem_cons.mp hmem with heq | hmem2
          · subst heq
            simp only [toEntries] at hok
            split at hok
            next heq =>
              rw [toEntries_lookup_untouched rest f cur db out db' hok k ?_]
              · exact hcurk
              · intro e2 he2
                rw [beq_eq_false_iff_ne]
                intro he
                subst he
                exact absurd (List.mem_map_of_mem Prod.fst he2) hnd.1
            next e2 heq hne => cases hok
            next v1 db1 heq =>
              cases f with
              | zero =>
                  simp only [resolveReference] at heq
                  cases heq
              | succ f2 =>
                  rw [resolveReference_keyError f2 cur n db htm] at heq
                  cases heq
          · obtain ⟨k0, v0⟩ := e
            have hk0k : (k0 == k) = false := by
              rw [beq_eq_false_iff_ne]
              intro he
              subst he
              exact absurd (List.mem_map_of_mem Prod.fst hmem2) hnd.1
            by_cases hk0 : (k0 == "_types_mapping") = true
            · rcases eq_of_beq hk0 with rfl
              have hv0 : lookupField cur "_types_mapping" = some v0 :=
                hI2 v0 (List.mem_cons_self _ _)
              unfold tmAbsentAt at htm
              rw [hv0] at htm
              cases v0 with
              | vMap tmm =>
                  have htm' : (∀ e2 ∈ tmm, ∃ s, e2.2 = Value.vStr s)
                      ∧ containsKey tmm "_type" = false
                      ∧ lookupField tmm (pyStr (Value.vOid n)) = none := htm
                  simp only [toEntries] at hok
                  rw [htm'.2.1] at hok
                  simp only [Bool.false_eq_true, if_false] at hok
                  split at hok
                  next e2 heq => cases hok
                  next m1 db1 heq =>
                    obtain ⟨hm1, hdb1⟩ :=
                      transformOutgoing_allVStr f tmm db m1 db1 htm'.1 heq
                    subst hm1
                    subst hdb1
                    refine ih f (setField cur "_types_mapping" (Value.vMap m1))
                      db1 out db' hok hmem2 hnd.2 ?_ ?_ ?_
                    · rw [setField_lookup_other cur k "_types_mapping"
                        (Value.vMap m1) ?_]
                      · exact hcurk
                      · rw [beq_eq_false_iff_ne]
                        intro he
                        subst he
                        exact absurd (List.mem_map_of_mem Prod.fst hmem2) hnd.1
                    · unfold tmAbsentAt
                      rw [setField_lookup_self]
                      exact htm'
                    · intro v hv
                      exact absurd (List.mem_map_of_mem Prod.fst hv) hnd.1
              | vNull => exact False.elim htm
              | vBool b0 => exact False.elim htm
              | vStr s0 => exact False.elim htm
              | vInt n0 => exact False.elim htm
              | vOid n0 => exact False.elim htm
              | vPlaceholder c0 o0 => exact False.elim htm
              | vObj t cn i m ig f0 pa fc fn iid => exact False.elim htm
            · have hk0f : (k0 == "_types_mapping") = false := by
                cases hb : (k0 == "_types_mapping")
                · rfl
                · exact absurd hb hk0
              obtain ⟨cur1, db1, hrest, hd⟩ :=
                toEntries_cons_ok f k0 v0 rest cur db out db' hok
              refine ih f cur1 db1 out db' hrest hmem2 hnd.2 ?_ ?_ ?_
              · rcases hd with rfl | ⟨v1, rfl⟩
                · exact hcurk
                · rw [setField_lookup_other cur k k0 v1 hk0k]
                  exact hcurk
              · rcases hd with rfl | ⟨v1, rfl⟩
                · exact htm
                · unfold tmAbsentAt at htm ⊢
                  rw [setField_lookup_other cur "_types_mapping" k0 v1 hk0f]
                  exact htm
              · intro v hv
                rcases hd with rfl | ⟨v1, rfl⟩
                · exact hI2 v (List.mem_cons_of_mem _ hv)
                · rw [setField_lookup_other cur "_types_mapping" k0 v1 hk0f]
                  exact hI2 v (List.mem_cons_of_mem _ hv)

/-- C8: transform_outgoing leaves an ObjectId entry bound to the raw
identifier whenever its tag is absent from the well-formed types mapping of
the dict (or the dict carries no types mapping at all): the KeyError raised
by the mapping subscript is the caught case, and the rest of the mapping is
still transformed (the run ends in ok). The other half of the claim is
false: when the tag is present but the recorded type is not an attribute of
the model module, the AttributeError raised by getattr is not caught and
the whole transform fails (see the counterexample). -/
theorem c8_tag_absent_left_raw (fuel : Nat) (son : SON) (db : DB)
    (k : String) (n : Nat) (out : SON) (db' : DB)
    (hok : transformOutgoing fuel son db = .ok (out, db'))
    (hmem : (k, Value.vOid n) ∈ son)
    (hnd : (son.map Prod.fst).Nodup)
    (htm : tmAbsentAt son n) :
    lookupField out k = some (Value.vOid n) := by
  cases fuel with
  | zero => cases hok
  | succ f =>
      simp only [transformOutgoing] at hok
      exact toEntries_tag_absent k n son f son db out db' hok hmem hnd
        (lookupField_of_mem_nodup son k (Value.vOid n) hmem hnd) htm
        (fun v hv => lookupField_of_mem_nodup son "_types_mapping" v hv hnd)

/-- C8 counterexample: a reference whose tag IS present in the types mapping
but names a type unknown to the model module makes transform_outgoing fail
with AttributeError (the try block catches only KeyError), contradicting
the never-raises claim. -/
theorem c8_counterexample_unknown_doctype :
    transformOutgoing 6
      [("r", Value.vOid 7),
       ("_types_mapping", Value.vMap [("7", Value.vStr "Ghost")])] sampleDB
      = .error .attributeError := by rfl

theorem c8_tag_absent_left_raw_witness :
    lookupField [("r", Value.vOid 7), ("s", Value.vStr "hi")] "r"
      = some (Value.vOid 7) :=
  c8_tag_absent_left_raw 6 [("r", Value.vOid 7), ("s", Value.vStr "hi")]
    sampleDB "r" 7 [("r", Value.vOid 7), ("s", Value.vStr "hi")] sampleDB
    (by rfl) (by simp) (by decide) (by trivial)

/-- A live ConcreteDocument instance in the state attribute assignment
produces: null id, modified, default ignore list, business fields foo = a and
bar = b, instance identity i. -/
def c3Doc (a b : String) (i : Nat) : DocR :=
  ⟨"ConcreteDocument", some "concrete_collection", Value.vNull, true,
   ["id", "modified"], [("foo", Value.vStr a), ("bar", Value.vStr b)],
   [], none, none, i⟩

/-- The collection adapter the Database hands out for concrete_collection
while caching is enabled. -/
def c3Handle : CollHandle :=
  (dbGetCollection sampleDB "concrete_collection").1

/-- The driver state after that Database getattr: the registry now holds an
enabled, empty cache for concrete_collection. -/
def c3DB1 : DB := (dbGetCollection sampleDB "concrete_collection").2

/-- The same live instance after the insert: the generated id written onto
it, the fields cache warmed by the toSON serialization, the identity i
untouched. -/
def c3Inserted (a b : String) (i : Nat) : DocR :=
  { c3Doc a b i with
    id := Value.vOid 0,
    fieldsCache := some [("foo", Value.vStr a), ("bar", Value.vStr b)] }

/-- The driver state after the insert: the raw document in the store, the
live instance cached under its ObjectId, the fresh-id counter advanced. -/
def c3DB2 (a b : String) (i : Nat) : DB :=
  { store := [("concrete_collection",
      [[("foo", Value.vStr a), ("bar", Value.vStr b),
        ("_type", Value.vStr "ConcreteDocument"), ("_id", Value.vOid 0)]])],
    cacheRegistry := [("concrete_collection",
      ⟨true, [(0, c3Inserted a b i)]⟩)],
    cacheEnabled := true,
    lazyLoading := true,
    module := sampleDB.module,
    nextOid := 1,
    nextIid := 100 }

/-- The newly materialized instance the cache-disabled find produces: same
stored data, but populated through fromSON on a fresh instance, whose
identity is the nextIid counter of the driver state (not i). -/
def c3Fresh (a b : String) : DocR :=
  ⟨"ConcreteDocument", some "concrete_collection", Value.vOid 0, false,
   ["id", "modified"], [("foo", Value.vStr a), ("bar", Value.vStr b)],
   [], none, none, 100⟩

/-- The driver state after the cache-disabled find: cache toggle off, the
registry cache disabled (its entry kept but invisible), one more instance
identity consumed by the materialization. -/
def c3DB4 (a b : String) (i : Nat) : DB :=
  { store := [("concrete_collection",
      [[("foo", Value.vStr a), ("bar", Value.vStr b),
        ("_type", Value.vStr "ConcreteDocument"), ("_id", Value.vOid 0)]])],
    cacheRegistry := [("concrete_collection",
      ⟨false, [(0, c3Inserted a b i)]⟩)],
    cacheEnabled := false,
    lazyLoading := true,
    module := sampleDB.module,
    nextOid := 1,
    nextIid := 101 }

/-- C3: inserting a live document d through the collection adapter with
caching enabled populates the cache, and iterating a find for its id returns
the very same live instance as d (the returned object carries the instance
identity i of d, for every i), with the unique-already-returned latch making
a second next raise StopIteration; after disabling the cache, the same find
on a freshly handed-out adapter returns a newly materialized instance whose
identity is the fresh-instance counter of the driver (100 here), not i. -/
theorem c3_cache_find_identity (a b : String) (i : Nat) :
    collectionInsert 10 c3Handle (c3Doc a b i) c3DB1
      = .ok (Value.vOid 0, c3Inserted a b i, c3DB2 a b i)
    ∧ (c3Inserted a b i).iid = (c3Doc a b i).iid
    ∧ cursorNext 10 (collectionFind c3Handle [("_id", Value.vOid 0)])
        (c3DB2 a b i)
      = .ok ((c3Inserted a b i).val,
          { collectionFind c3Handle [("_id", Value.vOid 0)] with
            uniqueAlreadyReturned := true },
          c3DB2 a b i)
    ∧ cursorNext 10
        { collectionFind c3Handle [("_id", Value.vOid 0)] with
          uniqueAlreadyReturned := true } (c3DB2 a b i)
      = .error .stopIteration
    ∧ (dbGetCollection (dbDisableCache (c3DB2 a b i)) "concrete_collection").1
      = ⟨"concrete_collection", false⟩
    ∧ cursorNext 10
        (collectionFind ⟨"concrete_collection", false⟩ [("_id", Value.vOid 0)])
        (dbDisableCache (c3DB2 a b i))
      = .ok ((c3Fresh a b).val,
          { collectionFind (⟨"concrete_collection", false⟩ : CollHandle)
              [("_id", Value.vOid 0)] with pos := 1 },
          c3DB4 a b i)
    ∧ (c3Fresh a b).iid = sampleDB.nextIid :=
  ⟨rfl, rfl, rfl, rfl, rfl, rfl, rfl⟩
